import Mathlib

/-!
Verification of the pyx Python static-analysis toolkit.

This file gives a shallow embedding, in Lean 4, of the parts of the
TypeScript source that the verified properties are about:

* the text-level transformation passes (`src/unnamed/part_003`,
  `src/unnamed/part_004`, `src/unnamed/part_005`, `src/core/transform/input.ts`);
* the regex-driven safety analyzer (`src/core/safety/rules.ts`,
  `src/core/safety/analyzer.ts`);
* a fragment of the tokenizer and recursive-descent parser
  (`src/core/ast/parser.ts`).

Strings are modelled as `List Char` (JavaScript strings are sequences of
code units; all inputs considered here are ASCII), with `String` wrappers
at the interface where convenient.  JavaScript regular expressions used by
the source are either transcribed into a small backtracking item-matcher
(`RItem`, faithful to JS semantics for the constructs the rules use) or,
for the fixed pattern of `mockInput`, hand-compiled to a deterministic
scanner.
-/

namespace Pyx

/-- JS `\s` (whitespace class), restricted to the characters that can occur
in the inputs of interest plus the common Unicode members. -/
def jsSpace (c : Char) : Bool :=
  c = ' ' || c = '\t' || c = '\n' || c = '\r' || c = '\x0b' || c = '\x0c' ||
  c = '\u00A0' || c = '\u1680' || ('\u2000' ≤ c && c ≤ '\u200A') ||
  c = '\u2028' || c = '\u2029' || c = '\u202F' || c = '\u205F' ||
  c = '\u3000' || c = '\uFEFF'

/-- JS `\w` (word character class `[A-Za-z0-9_]`), used for `\b`. -/
def isWordChar (c : Char) : Bool :=
  ('a' ≤ c && c ≤ 'z') || ('A' ≤ c && c ≤ 'Z') || ('0' ≤ c && c ≤ '9') || c = '_'

/-- JS `String.prototype.trim` on a list of characters. -/
def jsTrim (l : List Char) : List Char :=
  ((l.dropWhile jsSpace).reverse.dropWhile jsSpace).reverse

/-- JS `String.prototype.split('\n')`. -/
def splitNl : List Char → List (List Char)
  | [] => [[]]
  | c :: rest =>
    if c = '\n' then [] :: splitNl rest
    else
      match splitNl rest with
      | [] => [[c]]
      | l :: ls => (c :: l) :: ls

/-- JS `Array.prototype.join('\n')`. -/
def joinNl : List (List Char) → List Char
  | [] => []
  | [l] => l
  | l :: ls => l ++ '\n' :: joinNl ls

theorem splitNl_ne_nil (l : List Char) : splitNl l ≠ [] := by
  induction l with
  | nil => simp [splitNl]
  | cons c rest ih =>
    simp only [splitNl]
    split
    · simp
    · split
      · simp
      · simp

/-- Leading-whitespace run, JS `line.match(/^(\s*)/)[1]`. -/
def leadingSpace (l : List Char) : List Char :=
  l.takeWhile jsSpace

/-!
## A small backtracking matcher for the JS regexes used by the source

Every quantifier in the source's safety-rule regexes applies to a
single-character class, so a pattern can be transcribed as a flat list of
items.  `gopen`/`gclose` delimit capture group 1 (at most one group occurs
per pattern in the source).  Greedy and lazy quantifiers backtrack exactly
as in JavaScript.
-/

/-- One item of a hand-transcribed JS regular expression. -/
inductive RItem where
  | lit (c : Char)
  | cls (f : Char → Bool)
  | star (f : Char → Bool)
  | plus (f : Char → Bool)
  | lazyPlus (f : Char → Bool)
  | wb
  | gopen
  | gclose

/-- Length of the maximal run of characters satisfying `f`. -/
def runLen (f : Char → Bool) (l : List Char) : Nat :=
  (l.takeWhile f).length

/-- Is the character (if any) a word character? (for `\b`). -/
def isWordOpt : Option Char → Bool
  | some c => isWordChar c
  | none => false

/-- The character preceding position `k` of `l` (`prev` when `k = 0`). -/
def prevAfter (prev : Option Char) (l : List Char) (k : Nat) : Option Char :=
  if k = 0 then prev else l[k - 1]?

/-- Result of a match attempt: consumed length and capture-group offsets. -/
abbrev MRes := Option (Nat × Option Nat × Option Nat)

/-- Continue a match after shifting by `k` characters. -/
def contAt (cont : Option Char → List Char → Nat → MRes)
    (prev : Option Char) (l : List Char) (off k : Nat) : MRes :=
  (cont (prevAfter prev l k) (l.drop k) (off + k)).map
    (fun r => (r.1 + k, r.2))

/-- Greedy quantifier backtracking: try shifts `k, k-1, ..., 0`. -/
def greedyTry (cont : Option Char → List Char → Nat → MRes)
    (prev : Option Char) (l : List Char) (off : Nat) : Nat → MRes
  | 0 => cont prev l off
  | k + 1 =>
    match contAt cont prev l off (k + 1) with
    | some r => some r
    | none => greedyTry cont prev l off k

/-- Greedy quantifier backtracking with minimum one: shifts `k, ..., 1`. -/
def greedyTry1 (cont : Option Char → List Char → Nat → MRes)
    (prev : Option Char) (l : List Char) (off : Nat) : Nat → MRes
  | 0 => none
  | k + 1 =>
    match contAt cont prev l off (k + 1) with
    | some r => some r
    | none => greedyTry1 cont prev l off k

/-- Lazy quantifier: try shifts `k, k+1, ...` (`count` attempts). -/
def lazyTry (cont : Option Char → List Char → Nat → MRes)
    (prev : Option Char) (l : List Char) (off : Nat) :
    Nat → Nat → MRes
  | _, 0 => none
  | k, count + 1 =>
    match contAt cont prev l off k with
    | some r => some r
    | none => lazyTry cont prev l off (k + 1) count

/-- Match a list of items at the start of `l`.  `prev` is the character just
before this position (for `\b`), `off` the offset of this position from the
start of the whole match attempt (for capture offsets).  Returns the number
of consumed characters and the capture-group offsets.  The `fuel` argument
only makes the recursion structural; one unit is spent per item, so any
`fuel > length of the item list` computes the match. -/
def matchItems : Nat → List RItem → Option Char → List Char → Nat → MRes
  | 0, _, _, _, _ => none
  | _ + 1, [], _, _, _ => some (0, none, none)
  | fuel + 1, .lit c :: rest, _, l, off =>
    match l with
    | [] => none
    | x :: xs =>
      if x = c then
        (matchItems fuel rest (some x) xs (off + 1)).map
          (fun r => (r.1 + 1, r.2))
      else none
  | fuel + 1, .cls f :: rest, _, l, off =>
    match l with
    | [] => none
    | x :: xs =>
      if f x then
        (matchItems fuel rest (some x) xs (off + 1)).map
          (fun r => (r.1 + 1, r.2))
      else none
  | fuel + 1, .star f :: rest, prev, l, off =>
    greedyTry (matchItems fuel rest) prev l off (runLen f l)
  | fuel + 1, .plus f :: rest, prev, l, off =>
    greedyTry1 (matchItems fuel rest) prev l off (runLen f l)
  | fuel + 1, .lazyPlus f :: rest, prev, l, off =>
    lazyTry (matchItems fuel rest) prev l off 1 (runLen f l)
  | fuel + 1, .wb :: rest, prev, l, off =>
    if isWordOpt prev != isWordOpt l.head? then matchItems fuel rest prev l off
    else none
  | fuel + 1, .gopen :: rest, prev, l, off =>
    (matchItems fuel rest prev l off).map (fun r => (r.1, some off, r.2.2))
  | fuel + 1, .gclose :: rest, prev, l, off =>
    (matchItems fuel rest prev l off).map (fun r => (r.1, r.2.1, some off))

/-- Match a pattern at the start of `l` (with enough fuel for its items). -/
def matchAt (items : List RItem) (prev : Option Char) (l : List Char) : MRes :=
  matchItems (items.length + 1) items prev l 0

/-- One match found while scanning: its position, its text, and the text of
capture group 1 when the pattern has one. -/
structure MatchRec where
  index : Nat
  matched : List Char
  group1 : Option (List Char)
deriving DecidableEq, Repr

/-- Build the `MatchRec` for a match of length `n` at position `idx` of a
remaining input `l`, with relative capture offsets `a`/`b`. -/
def mkMatchRec (idx : Nat) (l : List Char) (n : Nat)
    (a b : Option Nat) : MatchRec :=
  { index := idx
    matched := l.take n
    group1 :=
      match a, b with
      | some s, some e => some (((l.take n).drop s).take (e - s))
      | _, _ => none }

/-- All matches, scanning left to right without overlap, as JS
`String.prototype.matchAll` with a `g`-flagged regex.  `fuel` only makes the
scan structural; one unit is spent per position, so any
`fuel > length of the input` computes the scan. -/
def matchAllAux (items : List RItem) :
    Nat → Option Char → List Char → Nat → List MatchRec
  | 0, _, _, _ => []
  | fuel + 1, prev, l, idx =>
    match matchAt items prev l with
    | some (n, a, b) =>
      let m0 := mkMatchRec idx l n a b
      match l with
      | [] => [m0]
      | c :: rest =>
        if n = 0 then
          m0 :: matchAllAux items fuel (some c) rest (idx + 1)
        else
          m0 :: matchAllAux items fuel (prevAfter prev l n)
            (rest.drop (n - 1)) (idx + n)
    | none =>
      match l with
      | [] => []
      | c :: rest => matchAllAux items fuel (some c) rest (idx + 1)

/-- JS `[...code.matchAll(new RegExp(pattern, 'g'))]`. -/
def reMatchAll (items : List RItem) (l : List Char) : List MatchRec :=
  matchAllAux items (l.length + 1) none l 0

/-- JS `pattern.test(code)`. -/
def reTest (items : List RItem) (l : List Char) : Bool :=
  !(reMatchAll items l).isEmpty

/-- Transcribe a string as a sequence of literal-character items. -/
def lits (s : String) : List RItem :=
  s.data.map RItem.lit

/-- The class `['"]`. -/
def quoteCls (c : Char) : Bool :=
  c = '\'' || c = '"'

/-- The class matched by JS `.` (any character but a line terminator). -/
def dotCls (c : Char) : Bool :=
  !(c = '\n' || c = '\r' || c = ' ' || c = ' ')

/-!
## Safety analyzer (src/core/safety/rules.ts, src/core/safety/analyzer.ts)
-/

/-- `Severity` from `src/core/safety/types.ts`. -/
inductive Severity where
  | error
  | warning
deriving DecidableEq, Repr

/-- `ViolationType` from `src/core/safety/types.ts`. -/
inductive ViolationType where
  | dangerous_import
  | code_execution
  | filesystem_access
  | network_access
  | dangerous_attribute
  | serialization_danger
  | ffi_danger
  | infinite_loop
  | resource_exhaustion
  | command_injection
deriving DecidableEq, Repr

/-- `SafetyViolation` from `src/core/safety/types.ts`. -/
structure SafetyViolation where
  type : ViolationType
  message : String
  line : Option Nat
  severity : Severity
deriving DecidableEq, Repr

/-- `SafetyRule` from `src/core/safety/rules.ts`. -/
structure SafetyRule where
  type : ViolationType
  patterns : List (List RItem)
  getMessage : MatchRec → String
  severity : Severity
  skipIf : Option (List Char → MatchRec → Bool) := none

/-- `/\bimport\s+M\b/` — the repeated shape of the import rules. -/
def importPat (m : String) : List RItem :=
  [.wb] ++ lits "import" ++ [.plus jsSpace] ++ lits m ++ [.wb]

/-- `/\bfrom\s+M\s+import\b/` — the repeated shape of the from-import rules. -/
def fromImportPat (m : String) : List RItem :=
  [.wb] ++ lits "from" ++ [.plus jsSpace] ++ lits m ++ [.plus jsSpace] ++
    lits "import" ++ [.wb]

/-- `dangerousImportRules` from `src/core/safety/rules.ts`. -/
def dangerousImportRules : List SafetyRule :=
  [ { type := .dangerous_import
      patterns := [importPat "os", fromImportPat "os"]
      getMessage := fun _ => "Dangerous import: os module allows system access"
      severity := .error }
  , { type := .dangerous_import
      patterns := [importPat "subprocess", fromImportPat "subprocess"]
      getMessage := fun _ => "Dangerous import: subprocess module allows command execution"
      severity := .error }
  , { type := .dangerous_import
      patterns := [importPat "socket", fromImportPat "socket"]
      getMessage := fun _ => "Dangerous import: socket module allows network access"
      severity := .error }
  , { type := .dangerous_import
      patterns := [importPat "pty", fromImportPat "pty"]
      getMessage := fun _ => "Dangerous import: pty module allows pseudo-terminal access"
      severity := .error } ]

/-- `codeExecutionRules` from `src/core/safety/rules.ts`. -/
def codeExecutionRules : List SafetyRule :=
  [ { type := .code_execution
      patterns := [[.wb] ++ lits "exec" ++ [.star jsSpace, .lit '(']]
      getMessage := fun _ => "Dangerous function: exec() can execute arbitrary code"
      severity := .error }
  , { type := .code_execution
      patterns := [[.wb] ++ lits "eval" ++ [.star jsSpace, .lit '(']]
      getMessage := fun _ => "Dangerous function: eval() can execute arbitrary code"
      severity := .error }
  , { type := .code_execution
      patterns := [[.wb] ++ lits "compile" ++ [.star jsSpace, .lit '(']]
      getMessage := fun _ => "Dangerous function: compile() can compile arbitrary code"
      severity := .error }
  , { type := .code_execution
      patterns := [lits "__import__" ++ [.star jsSpace, .lit '(']]
      getMessage := fun _ => "Dangerous function: __import__() can import arbitrary modules"
      severity := .error } ]

/-- `filesystemRules` from `src/core/safety/rules.ts`. -/
def filesystemRules : List SafetyRule :=
  [ { type := .filesystem_access
      patterns := [lits "open" ++
        [.star jsSpace, .lit '(', .star jsSpace, .cls quoteCls, .gopen] ++
        lits "/etc/" ++
        [.star (fun c => !(quoteCls c)), .gclose, .cls quoteCls]]
      getMessage := fun m =>
        "Filesystem access: Attempting to access /etc/ (" ++
          String.mk (m.group1.getD []) ++ ")"
      severity := .error }
  , { type := .filesystem_access
      patterns := [lits "open" ++
        [.star jsSpace, .lit '(', .star jsSpace, .cls quoteCls, .gopen] ++
        lits "/proc/" ++
        [.star (fun c => !(quoteCls c)), .gclose, .cls quoteCls]]
      getMessage := fun m =>
        "Filesystem access: Attempting to access /proc/ (" ++
          String.mk (m.group1.getD []) ++ ")"
      severity := .error }
  , { type := .filesystem_access
      patterns := [lits "open" ++
        [.star jsSpace, .lit '(', .star jsSpace, .cls quoteCls, .gopen,
         .lit '/', .lazyPlus dotCls, .gclose, .cls quoteCls,
         .star jsSpace, .lit ',', .star jsSpace, .cls quoteCls,
         .cls (fun c => c = 'w' || c = 'a')]]
      getMessage := fun m =>
        "Filesystem access: Writing to absolute path " ++
          String.mk (m.group1.getD [])
      severity := .error } ]

/-- `networkRules` from `src/core/safety/rules.ts`. -/
def networkRules : List SafetyRule :=
  [ { type := .network_access
      patterns := [importPat "urllib",
        [.wb] ++ lits "from" ++ [.plus jsSpace] ++ lits "urllib" ++ [.wb]]
      getMessage := fun _ => "Network access: urllib allows HTTP requests"
      severity := .error }
  , { type := .network_access
      patterns := [importPat "http.client", fromImportPat "http.client"]
      getMessage := fun _ => "Network access: http.client allows HTTP connections"
      severity := .error }
  , { type := .network_access
      patterns := [importPat "requests", fromImportPat "requests"]
      getMessage := fun _ => "Network access: requests library allows HTTP requests"
      severity := .error }
  , { type := .network_access
      patterns := [importPat "ftplib", fromImportPat "ftplib"]
      getMessage := fun _ => "Network access: ftplib allows FTP connections"
      severity := .error } ]

/-- `dangerousAttributeRules` from `src/core/safety/rules.ts`. -/
def dangerousAttributeRules : List SafetyRule :=
  [ { type := .dangerous_attribute
      patterns := [lits "__builtins__"]
      getMessage := fun _ => "Dangerous attribute: __builtins__ access can bypass sandboxing"
      severity := .error }
  , { type := .dangerous_attribute
      patterns := [lits "__globals__"]
      getMessage := fun _ => "Dangerous attribute: __globals__ access can expose sensitive data"
      severity := .error }
  , { type := .dangerous_attribute
      patterns := [lits "__code__"]
      getMessage := fun _ => "Dangerous attribute: __code__ access can modify function behavior"
      severity := .error }
  , { type := .dangerous_attribute
      patterns := [lits "__subclasses__"]
      getMessage := fun _ => "Dangerous attribute: __subclasses__ access enables class traversal attacks"
      severity := .error }
  , { type := .dangerous_attribute
      patterns := [lits "__mro__"]
      getMessage := fun _ => "Dangerous attribute: __mro__ access enables method resolution order traversal"
      severity := .error } ]

/-- `serializationRules` from `src/core/safety/rules.ts`. -/
def serializationRules : List SafetyRule :=
  [ { type := .serialization_danger
      patterns := [importPat "pickle", fromImportPat "pickle"]
      getMessage := fun _ => "Serialization danger: pickle can execute arbitrary code during deserialization"
      severity := .error }
  , { type := .serialization_danger
      patterns := [importPat "cPickle", fromImportPat "cPickle"]
      getMessage := fun _ => "Serialization danger: cPickle can execute arbitrary code during deserialization"
      severity := .error }
  , { type := .serialization_danger
      patterns := [importPat "marshal", fromImportPat "marshal"]
      getMessage := fun _ => "Serialization danger: marshal can execute arbitrary code"
      severity := .error }
  , { type := .serialization_danger
      patterns := [importPat "shelve", fromImportPat "shelve"]
      getMessage := fun _ => "Serialization danger: shelve uses pickle internally"
      severity := .error } ]

/-- `ffiRules` from `src/core/safety/rules.ts`. -/
def ffiRules : List SafetyRule :=
  [ { type := .ffi_danger
      patterns := [importPat "ctypes", fromImportPat "ctypes"]
      getMessage := fun _ => "FFI danger: ctypes allows calling native libraries"
      severity := .error }
  , { type := .ffi_danger
      patterns := [importPat "cffi", fromImportPat "cffi"]
      getMessage := fun _ => "FFI danger: cffi allows calling native libraries"
      severity := .error } ]

/-- `/\bbreak\b/` — the skip predicate of the infinite-loop rules. -/
def breakPat : List RItem :=
  [.wb] ++ lits "break" ++ [.wb]

/-- `/while\s+True\s*:/`. -/
def whileTruePat : List RItem :=
  lits "while" ++ [.plus jsSpace] ++ lits "True" ++ [.star jsSpace, .lit ':']

/-- `/while\s+1\s*:/`. -/
def whileOnePat : List RItem :=
  lits "while" ++ [.plus jsSpace] ++ lits "1" ++ [.star jsSpace, .lit ':']

/-- `infiniteLoopRules` from `src/core/safety/rules.ts`. -/
def infiniteLoopRules : List SafetyRule :=
  [ { type := .infinite_loop
      patterns := [whileTruePat]
      getMessage := fun _ => "Potential infinite loop: while True without apparent break"
      severity := .warning
      skipIf := some (fun code _ => reTest breakPat code) }
  , { type := .infinite_loop
      patterns := [whileOnePat]
      getMessage := fun _ => "Potential infinite loop: while 1 without apparent break"
      severity := .warning
      skipIf := some (fun code _ => reTest breakPat code) } ]

/-- `resourceExhaustionRules` from `src/core/safety/rules.ts`. -/
def resourceExhaustionRules : List SafetyRule :=
  [ { type := .resource_exhaustion
      patterns := [lits "range" ++ [.star jsSpace, .lit '(', .star jsSpace] ++
        lits "10" ++ [.star jsSpace] ++ lits "**" ++
        [.star jsSpace, .cls (fun c => c = '7' || c = '8' || c = '9'),
         .star jsSpace, .lit ')']]
      getMessage := fun _ => "Resource exhaustion: range() with extremely large value (10^7+)"
      severity := .error }
  , { type := .resource_exhaustion
      patterns := [lits "range" ++
        [.star jsSpace, .lit '(', .star jsSpace, .lit '2', .star jsSpace] ++
        lits "**" ++
        [.star jsSpace, .cls (fun c => '3' ≤ c && c ≤ '9'),
         .plus (fun c => '0' ≤ c && c ≤ '9'), .star jsSpace, .lit ')']]
      getMessage := fun _ => "Resource exhaustion: range() with exponential value"
      severity := .error }
  , { type := .resource_exhaustion
      patterns := [[.lit '*', .star jsSpace, .lit '(', .star jsSpace] ++
        lits "10" ++ [.star jsSpace] ++ lits "**" ++
        [.star jsSpace, .cls (fun c => c = '7' || c = '8' || c = '9'),
         .star jsSpace, .lit ')']]
      getMessage := fun _ => "Resource exhaustion: multiplication with extremely large value"
      severity := .error }
  , { type := .resource_exhaustion
      patterns := [[.lit '[', .star jsSpace, .star (fun c => !(c = ']')),
        .lit ']', .star jsSpace, .lit '*', .star jsSpace] ++ lits "10000" ++
        [.star jsSpace, .lit ']', .star jsSpace, .lit '*', .star jsSpace] ++
        lits "10000"]
      getMessage := fun _ => "Resource exhaustion: nested list multiplication creating huge array"
      severity := .error } ]

/-- `commandInjectionRules` from `src/core/safety/rules.ts`. -/
def commandInjectionRules : List SafetyRule :=
  [ { type := .command_injection
      patterns := [lits "os.popen" ++ [.star jsSpace, .lit '(']]
      getMessage := fun _ => "Command injection risk: os.popen() with potential user input"
      severity := .error }
  , { type := .command_injection
      patterns := [lits "shell" ++ [.star jsSpace, .lit '=', .star jsSpace] ++
        lits "True"]
      getMessage := fun _ => "Command injection risk: shell=True allows shell injection"
      severity := .error }
  , { type := .command_injection
      patterns := [lits "os.system" ++
        [.star jsSpace, .lit '(', .star jsSpace, .lit 'f', .cls quoteCls]]
      getMessage := fun _ => "Command injection risk: os.system() with f-string"
      severity := .error } ]

/-- `allRules` from `src/core/safety/rules.ts`. -/
def allRules : List SafetyRule :=
  dangerousImportRules ++ codeExecutionRules ++ filesystemRules ++
  networkRules ++ dangerousAttributeRules ++ serializationRules ++
  ffiRules ++ infiniteLoopRules ++ resourceExhaustionRules ++
  commandInjectionRules

/-- `getLineNumber` from `src/core/safety/analyzer.ts`:
`code.substring(0, index).split('\n').length`. -/
def getLineNumber (code : List Char) (index : Nat) : Nat :=
  (splitNl (code.take index)).length

/-- `applyRule` from `src/core/safety/analyzer.ts`. -/
def applyRule (code : List Char) (rule : SafetyRule) : List SafetyViolation :=
  rule.patterns.flatMap (fun p =>
    (reMatchAll p code).filterMap (fun m =>
      match rule.skipIf with
      | some f =>
        if f code m then none
        else some { type := rule.type, message := rule.getMessage m
                    line := some (getLineNumber code m.index)
                    severity := rule.severity }
      | none =>
        some { type := rule.type, message := rule.getMessage m
               line := some (getLineNumber code m.index)
               severity := rule.severity }))

/-- `SafetyReport` from `src/core/safety/types.ts`. -/
structure SafetyReport where
  safe : Bool
  violations : List SafetyViolation
deriving DecidableEq, Repr

/-- `analyze` from `src/core/safety/analyzer.ts`. -/
def analyze (code : List Char) : SafetyReport :=
  let violations := allRules.flatMap (applyRule code)
  { safe := violations.length = 0, violations := violations }

/-!
## Async wrapping (src/unnamed/part_003)
-/

/-- `wrapAsync` from `src/unnamed/part_003`. -/
def wrapAsync (code : List Char) : List Char :=
  let lines := splitNl code
  let indentedLines := lines.map (fun line =>
    if line ≠ [] then "    ".data ++ line else line)
  let joined := joinNl indentedLines
  let indentedCode := if joined = [] then "    pass".data else joined
  "async def __pyx_main__():\n".data ++ indentedCode ++ "\n".data

/-- `/\bawait\s+/` — the await test inside `hasTopLevelAwait`. -/
def awaitPat : List RItem :=
  [.wb] ++ lits "await" ++ [.plus jsSpace]

/-- The loop body of `hasTopLevelAwait` from `src/unnamed/part_003`, with the
mutable `insideAsyncDef`/`asyncDefIndent` state passed explicitly. -/
def hasTopLevelAwaitAux : Bool → Nat → List (List Char) → Bool
  | _, _, [] => false
  | insideAsyncDef, asyncDefIndent, line :: rest =>
    let trimmed := jsTrim line
    if trimmed = [] || "#".data.isPrefixOf trimmed then
      hasTopLevelAwaitAux insideAsyncDef asyncDefIndent rest
    else
      let currentIndent := (leadingSpace line).length
      if "async def ".data.isPrefixOf trimmed then
        hasTopLevelAwaitAux true currentIndent rest
      else
        let insideAfter :=
          if insideAsyncDef && currentIndent ≤ asyncDefIndent then false
          else insideAsyncDef
        if !insideAfter && reTest awaitPat trimmed then true
        else hasTopLevelAwaitAux insideAfter asyncDefIndent rest

/-- `hasTopLevelAwait` from `src/unnamed/part_003`. -/
def hasTopLevelAwait (code : List Char) : Bool :=
  hasTopLevelAwaitAux false 0 (splitNl code)

/-- `wrapTopLevelAwait` from `src/unnamed/part_003`. -/
def wrapTopLevelAwait (code : List Char) : List Char :=
  if !hasTopLevelAwait code then code else wrapAsync code

/-!
## Import rewriting (src/unnamed/part_004)
-/

/-- `STDLIB_MODULES` from `src/unnamed/part_004`. -/
def STDLIB_MODULES : List String :=
  ["abc", "aifc", "argparse", "array", "ast", "asynchat", "asyncio",
   "asyncore", "atexit", "audioop", "base64", "bdb", "binascii", "binhex",
   "bisect", "builtins", "bz2", "calendar", "cgi", "cgitb", "chunk",
   "cmath", "cmd", "code", "codecs", "codeop", "collections", "colorsys",
   "compileall", "concurrent", "configparser", "contextlib", "contextvars",
   "copy", "copyreg", "cProfile", "crypt", "csv", "ctypes", "curses",
   "dataclasses", "datetime", "dbm", "decimal", "difflib", "dis",
   "distutils", "doctest", "email", "encodings", "enum", "errno",
   "faulthandler", "fcntl", "filecmp", "fileinput", "fnmatch", "fractions",
   "ftplib", "functools", "gc", "getopt", "getpass", "gettext", "glob",
   "graphlib", "grp", "gzip", "hashlib", "heapq", "hmac", "html", "http",
   "idlelib", "imaplib", "imghdr", "imp", "importlib", "inspect", "io",
   "ipaddress", "itertools", "json", "keyword", "lib2to3", "linecache",
   "locale", "logging", "lzma", "mailbox", "mailcap", "marshal", "math",
   "mimetypes", "mmap", "modulefinder", "multiprocessing", "netrc", "nis",
   "nntplib", "numbers", "operator", "optparse", "os", "ossaudiodev",
   "pathlib", "pdb", "pickle", "pickletools", "pipes", "pkgutil",
   "platform", "plistlib", "poplib", "posix", "posixpath", "pprint",
   "profile", "pstats", "pty", "pwd", "py_compile", "pyclbr", "pydoc",
   "queue", "quopri", "random", "re", "readline", "reprlib", "resource",
   "rlcompleter", "runpy", "sched", "secrets", "select", "selectors",
   "shelve", "shlex", "shutil", "signal", "site", "smtpd", "smtplib",
   "sndhdr", "socket", "socketserver", "spwd", "sqlite3", "ssl", "stat",
   "statistics", "string", "stringprep", "struct", "subprocess", "sunau",
   "symtable", "sys", "sysconfig", "syslog", "tabnanny", "tarfile",
   "telnetlib", "tempfile", "termios", "test", "textwrap", "threading",
   "time", "timeit", "tkinter", "token", "tokenize", "tomllib", "trace",
   "traceback", "tracemalloc", "tty", "turtle", "turtledemo", "types",
   "typing", "unicodedata", "unittest", "urllib", "uu", "uuid", "venv",
   "warnings", "wave", "weakref", "webbrowser", "winreg", "winsound",
   "wsgiref", "xdrlib", "xml", "xmlrpc", "zipapp", "zipfile", "zipimport",
   "zlib", "zoneinfo"]

/-- `isStdlibModule` from `src/unnamed/part_004`:
checks the top-level name (`"os.path"` → `"os"`) against the set. -/
def isStdlibModule (moduleName : List Char) : Bool :=
  let topLevel := moduleName.takeWhile (fun c => !(c = '.'))
  STDLIB_MODULES.contains (String.mk topLevel)

/-- `extractModuleName` from `src/unnamed/part_004`.  The two regexes
`/^\s*import\s+(\S+)/` and `/^\s*from\s+(\S+)\s+import/` are deterministic
(each quantified class is disjoint from what follows it), so they are
transcribed as maximal-run scans. -/
def extractModuleName (importLine : List Char) : Option (List Char) :=
  let stripped := importLine.dropWhile jsSpace
  let importCap : Option (List Char) :=
    if "import".data.isPrefixOf stripped then
      let after := stripped.drop 6
      let rest := after.dropWhile jsSpace
      if after.length > rest.length && rest ≠ [] then
        some (rest.takeWhile (fun c => !(jsSpace c)))
      else none
    else none
  match importCap with
  | some cap => some (cap.takeWhile (fun c => !(c = '.')))
  | none =>
    if "from".data.isPrefixOf stripped then
      let after := stripped.drop 4
      let rest := after.dropWhile jsSpace
      if after.length > rest.length && rest ≠ [] then
        let cap := rest.takeWhile (fun c => !(jsSpace c))
        let rest2 := rest.drop cap.length
        let rest3 := rest2.dropWhile jsSpace
        if rest2.length > rest3.length && "import".data.isPrefixOf rest3 then
          some (cap.takeWhile (fun c => !(c = '.')))
        else none
      else none
    else none

/-- The per-line loop of `rewriteImports` from `src/unnamed/part_004`, with
the `installedPackages` set passed explicitly. -/
def rewriteImportsAux : List String → List (List Char) → List (List Char)
  | _, [] => []
  | installed, line :: rest =>
    match extractModuleName line with
    | some m =>
      if m ≠ [] && !isStdlibModule m && !installed.contains (String.mk m) then
        ("await micropip.install(\"".data ++ m ++ "\")".data) :: line ::
          rewriteImportsAux (String.mk m :: installed) rest
      else
        line :: rewriteImportsAux installed rest
    | none => line :: rewriteImportsAux installed rest

/-- `rewriteImports` from `src/unnamed/part_004`. -/
def rewriteImports (code : List Char) : List Char :=
  joinNl (rewriteImportsAux [] (splitNl code))

/-!
## Return-value extraction (src/unnamed/part_005)
-/

/-- The chain of `startsWith` statement-keyword tests inside
`extractReturnValue` from `src/unnamed/part_005`. -/
def startsKeyword (codeOnly : List Char) : Bool :=
  ["def ", "class ", "if ", "elif ", "else:", "for ", "while ", "try:",
   "except", "finally:", "with ", "return ", "raise ", "import ", "from ",
   "pass", "break", "continue", "@"].any
    (fun k => k.data.isPrefixOf codeOnly)

/-- The test `/^[^=]*(?<![=!<>])=(?!=)/`: since `[^=]*` cannot cross an
`=`, the regex matches iff the first `=` of the line is not preceded by one
of `=!<>` and not followed by `=`. -/
def eqRegexTest (l : List Char) : Bool :=
  match l.findIdx? (fun c => c = '=') with
  | none => false
  | some j =>
    (decide (j = 0) ||
      match l[j - 1]? with
      | some c => !(c = '=' || c = '!' || c = '<' || c = '>')
      | none => true) &&
    (match l[j + 1]? with
     | some c => !(c = '=')
     | none => true)

/-- JS `String.prototype.includes`: does `needle` occur in the input? -/
def includesSub (needle : List Char) : List Char → Bool
  | [] => needle.isEmpty
  | c :: t => needle.isPrefixOf (c :: t) || includesSub needle t

/-- `isAssignment` from `src/unnamed/part_005` (line 67-68). -/
def isAssignment (codeOnly : List Char) : Bool :=
  eqRegexTest codeOnly && !(includesSub "==".data codeOnly) &&
    !(includesSub "lambda".data codeOnly)

/-- A line that the backward scan of `extractReturnValue` does not skip:
non-blank after trimming and not a pure comment line. -/
def meaningfulLine (l : List Char) : Bool :=
  let t := jsTrim l
  !(t = []) && !("#".data.isPrefixOf t)

/-- Backward scan for the last meaningful line, over the reversed line
list; returns the index (in the original list) and the raw line. -/
def lastMeaningfulRev : List (List Char) → Option (Nat × List Char)
  | [] => none
  | line :: restRev =>
    if meaningfulLine line then some (restRev.length, line)
    else lastMeaningfulRev restRev

/-- Strip trailing whitespace. -/
def rstripSpace (l : List Char) : List Char :=
  (l.reverse.dropWhile jsSpace).reverse

/-- The match `trimmedLine.match(/^(.+?)\s*(#.*)$/)` of
`extractReturnValue`, valid for inputs that do not start with whitespace or
`#` (which holds for the trimmed meaningful lines it is applied to): the
expression part is everything before the first `#` at position ≥ 1 with
trailing whitespace stripped, the comment part starts at that `#`. -/
def commentSplit (t : List Char) : Option (List Char × List Char) :=
  match t with
  | [] => none
  | c0 :: rest =>
    match rest.findIdx? (fun c => c = '#') with
    | none => none
    | some i0 =>
      let p := i0 + 1
      some (rstripSpace ((c0 :: rest).take p), (c0 :: rest).drop p)

/-- `const codeOnly = line.split('#')[0].trim()` applied to the trimmed
line (`const line = lines[i].trim()`). -/
def cleanLine (originalLine : List Char) : List Char :=
  jsTrim ((jsTrim originalLine).takeWhile (fun c => !(c = '#')))

/-- The rewrite of the chosen line (`extractReturnValue` lines 81-92):
`<indent>__pyx_result__ = <expr>`, with a trailing comment preserved after
two spaces. -/
def rewriteLine (originalLine : List Char) : List Char :=
  let indent := leadingSpace originalLine
  let trimmedLine := jsTrim originalLine
  match commentSplit trimmedLine with
  | some (expr, comment) =>
    indent ++ "__pyx_result__ = ".data ++ expr ++ "  ".data ++ comment
  | none =>
    indent ++ "__pyx_result__ = ".data ++ trimmedLine

/-- `extractReturnValue` from `src/unnamed/part_005`. -/
def extractReturnValue (code : List Char) : List Char :=
  let lines := splitNl code
  match lastMeaningfulRev lines.reverse with
  | none => code
  | some (i, originalLine) =>
    let codeOnly := cleanLine originalLine
    if startsKeyword codeOnly then code
    else if isAssignment codeOnly then code
    else joinNl (lines.set i (rewriteLine originalLine))

/-!
## Input mocking (src/core/transform/input.ts)

`mockInput` is `code.replace(/\binput\s*\(/g, 'await __pyx_input__(')`.
The pattern is deterministic (`\s` never matches `(`), so it is
hand-compiled to a scanner: `inputMatchLen` gives the length of the match
of `input\s*\(` at the head of the input, and `mockScan` threads the
word-character flag that decides `\b` (a match can only start with the word
character `i`, so no match can start after a word character).
-/

/-- Length consumed by `\s*\(` at the head of the input, if it matches. -/
def parenLen : List Char → Option Nat
  | [] => none
  | c :: rest =>
    if c = '(' then some 1
    else if jsSpace c then (parenLen rest).map (· + 1)
    else none

/-- Length consumed by the literal characters `ps` followed by `\s*\(`. -/
def inputEats : List Char → List Char → Option Nat
  | [], l => parenLen l
  | _ :: _, [] => none
  | p :: ps, c :: t =>
    if c = p then (inputEats ps t).map (· + 1) else none

/-- Length of the match of `input\s*\(` at the head of the input. -/
def inputMatchLen (l : List Char) : Option Nat :=
  inputEats "input".data l

theorem parenLen_bounds {l : List Char} {n : Nat} (h : parenLen l = some n) :
    1 ≤ n ∧ n ≤ l.length := by
  induction l generalizing n with
  | nil => simp [parenLen] at h
  | cons c rest ih =>
    simp only [parenLen] at h
    split at h
    · simp at h
      simp only [List.length_cons]
      omega
    · split at h
      · match hr : parenLen rest with
        | none => rw [hr] at h; simp at h
        | some m =>
          rw [hr] at h
          simp at h
          have := ih hr
          simp [List.length_cons]
          omega
      · simp at h

theorem inputEats_bounds {ps l : List Char} {n : Nat}
    (h : inputEats ps l = some n) : 1 ≤ n ∧ n ≤ l.length := by
  induction ps generalizing l n with
  | nil => exact parenLen_bounds h
  | cons p ps ih =>
    match l with
    | [] => simp [inputEats] at h
    | c :: t =>
      simp only [inputEats] at h
      split at h
      · match hr : inputEats ps t with
        | none => rw [hr] at h; simp at h
        | some m =>
          rw [hr] at h
          simp at h
          have := ih hr
          simp [List.length_cons]
          omega
      · simp at h

theorem inputMatchLen_bounds {l : List Char} {n : Nat}
    (h : inputMatchLen l = some n) : 1 ≤ n ∧ n ≤ l.length :=
  inputEats_bounds h

/-- The scanning loop of JS
`code.replace(/\binput\s*\(/g, 'await __pyx_input__(')`:
`prevWord` says whether the previous character is a word character (so `\b`
fails before the `i` of a candidate match). -/
def mockScan : Bool → List Char → List Char
  | _, [] => []
  | true, c :: rest => c :: mockScan (isWordChar c) rest
  | false, c :: rest =>
    match h : inputMatchLen (c :: rest) with
    | some n =>
      "await __pyx_input__(".data ++ mockScan false ((c :: rest).drop n)
    | none => c :: mockScan (isWordChar c) rest
termination_by _ l => l.length
decreasing_by
  · simp
  · have := inputMatchLen_bounds h
    simp [List.length_drop]
    omega
  · simp

/-- `mockInput` from `src/core/transform/input.ts`. -/
def mockInput (code : List Char) : List Char :=
  mockScan false code

/-!
### Idempotence of `mockInput`

`mockScan b l = l` when no match starts anywhere in `l` (`noMatchFrom`),
and the output of `mockScan` never contains a match: the replacement text
`await __pyx_input__(` contains `input` only after a word character, and
its head `a` can neither start a match nor extend one from earlier copied
characters.
-/

/-- No match of `input\s*\(` starts at any position of the input; `b` is
the word-character status of the preceding character. -/
def noMatchFrom : Bool → List Char → Bool
  | _, [] => true
  | b, c :: rest =>
    (b || (inputMatchLen (c :: rest)).isNone) && noMatchFrom (isWordChar c) rest

theorem inputChars : "input".data = ['i', 'n', 'p', 'u', 't'] := rfl

theorem replChars : "await __pyx_input__(".data =
    ['a', 'w', 'a', 'i', 't', ' ', '_', '_', 'p', 'y', 'x', '_',
     'i', 'n', 'p', 'u', 't', '_', '_', '('] := rfl

theorem mockScan_of_noMatch : ∀ (l : List Char) (b : Bool),
    noMatchFrom b l = true → mockScan b l = l := by
  intro l
  induction l with
  | nil => intro b _; cases b <;> simp [mockScan]
  | cons c rest ih =>
    intro b hb
    simp only [noMatchFrom, Bool.and_eq_true, Bool.or_eq_true] at hb
    obtain ⟨h1, h2⟩ := hb
    cases b with
    | true =>
      simp only [mockScan]
      exact congrArg (c :: ·) (ih _ h2)
    | false =>
      have hn : inputMatchLen (c :: rest) = none := by
        rcases h1 with h | h
        · simp at h
        · exact Option.isNone_iff_eq_none.mp h
      simp only [mockScan]
      split
      · rename_i n hsome
        rw [hn] at hsome
        cases hsome
      · exact congrArg (c :: ·) (ih _ h2)

/-- If a suffix of the literal pattern (plus `\s*\(`) fails on `rest`, it
also fails on `mockScan b rest`: the scanner only replaces full matches by
text that cannot complete a pending partial match. -/
theorem inputEats_scan_aux : ∀ (N : Nat) (l : List Char), l.length ≤ N →
    ∀ (ps : List Char), ps <:+ "input".data → ∀ (b : Bool),
    inputEats ps l = none → inputEats ps (mockScan b l) = none := by
  intro N
  induction N with
  | zero =>
    intro l hl ps _ b h
    have hnil : l = [] := List.length_eq_zero.mp (Nat.le_zero.mp hl)
    subst hnil
    cases b <;> simpa [mockScan] using h
  | succ N ih =>
    intro l hl ps hps b h
    match l with
    | [] => cases b <;> simpa [mockScan] using h
    | c :: rest =>
      have hrest : rest.length ≤ N := by
        simp only [List.length_cons] at hl
        omega
      have hcopy : inputEats ps (c :: mockScan (isWordChar c) rest) = none := by
        cases ps with
        | nil =>
          simp only [inputEats] at h ⊢
          simp only [parenLen] at h ⊢
          by_cases hc : c = '('
          · rw [if_pos hc] at h
            cases h
          · rw [if_neg hc] at h ⊢
            by_cases hs : jsSpace c = true
            · rw [if_pos hs] at h ⊢
              rw [Option.map_eq_none'] at h ⊢
              exact ih rest hrest [] ⟨"input".data, by simp⟩ (isWordChar c) h
            · rw [if_neg hs] at h ⊢
        | cons p ps2 =>
          have hps2 : ps2 <:+ "input".data :=
            (List.suffix_cons p ps2).trans hps
          simp only [inputEats] at h ⊢
          by_cases hcp : c = p
          · rw [if_pos hcp] at h ⊢
            rw [Option.map_eq_none'] at h ⊢
            exact ih rest hrest ps2 hps2 (isWordChar c) h
          · rw [if_neg hcp] at h ⊢
      cases b with
      | true =>
        simp only [mockScan]
        exact hcopy
      | false =>
        simp only [mockScan]
        split
        · -- a match was replaced: the replacement starts with 'a'
          cases ps with
          | nil =>
            simp only [List.cons_append, inputEats, parenLen]
            rw [if_neg (by decide : ¬('a' = '(')),
              if_neg (by decide : ¬(jsSpace 'a' = true))]
          | cons p ps2 =>
            have hmem : p ∈ "input".data := hps.subset (by simp)
            have hpa : p ≠ 'a' := by
              rintro rfl
              rw [inputChars] at hmem
              simp at hmem
            simp only [List.cons_append, inputEats]
            rw [if_neg (fun hh => hpa hh.symm)]
        · exact hcopy

/-- Walking `noMatchFrom` through the replacement text: no match can start
inside `await __pyx_input__(` (whatever follows it), provided no match
starts in what follows. -/
theorem noMatchFrom_repl (t : List Char) (b : Bool)
    (ht : noMatchFrom false t = true) :
    noMatchFrom b ("await __pyx_input__(".data ++ t) = true := by
  rw [replChars]
  simp only [List.cons_append, List.nil_append]
  simp [noMatchFrom, inputMatchLen, inputChars, inputEats, parenLen,
    isWordChar, jsSpace, ht]

theorem noMatchFrom_mockScan : ∀ (N : Nat) (l : List Char), l.length ≤ N →
    ∀ b : Bool, noMatchFrom b (mockScan b l) = true := by
  intro N
  induction N with
  | zero =>
    intro l hl b
    have hnil : l = [] := List.length_eq_zero.mp (Nat.le_zero.mp hl)
    subst hnil
    cases b <;> simp [mockScan, noMatchFrom]
  | succ N ih =>
    intro l hl b
    match l with
    | [] => cases b <;> simp [mockScan, noMatchFrom]
    | c :: rest =>
      have hrest : rest.length ≤ N := by
        simpa using Nat.lt_succ_iff.mp (lt_of_lt_of_le (by simp) hl)
      cases b with
      | true =>
        simp only [mockScan, noMatchFrom]
        simp [ih rest hrest (isWordChar c)]
      | false =>
        simp only [mockScan]
        split
        · rename_i n hsome
          have hbounds := inputMatchLen_bounds hsome
          have hz : ((c :: rest).drop n).length ≤ N := by
            simp only [List.length_drop, List.length_cons]
            omega
          exact noMatchFrom_repl _ false (ih _ hz false)
        · rename_i hnone
          simp only [noMatchFrom, Bool.and_eq_true, Bool.or_eq_true]
          refine ⟨Or.inr ?_, ih rest hrest (isWordChar c)⟩
          rw [Option.isNone_iff_eq_none]
          by_cases hci : c = 'i'
          · subst hci
            simp only [inputMatchLen, inputChars, inputEats] at hnone ⊢
            simp only [if_true] at hnone ⊢
            rw [Option.map_eq_none'] at hnone ⊢
            exact inputEats_scan_aux N rest hrest ['n', 'p', 'u', 't']
              ⟨['i'], rfl⟩ (isWordChar 'i') hnone
          · simp only [inputMatchLen, inputChars, inputEats]
            rw [if_neg hci]

/-!
## Tokenizer fragment (class Tokenizer, src/core/ast/parser.ts)

The embedding covers names, numbers, operators, newlines, comments and the
indentation machinery.  String-literal branches (plain, raw, byte and
f-strings) are not embedded: the tokenizer rejects inputs reaching them
with an error, restricting the verified fragment to quote-free sources.
Token positions are dropped: this parser never reads them.
-/

/-- `TokenType` from `src/core/ast/parser.ts` (the `FSTRING_*` kinds are
produced by no tokenizer path and are omitted). -/
inductive TokType where
  | NAME
  | NUMBER
  | STRING
  | OP
  | NEWLINE
  | INDENT
  | DEDENT
  | ENDMARKER
  | NL
  | COMMENT
  | ERRORTOKEN
deriving DecidableEq, Repr

/-- `Token` from `src/core/ast/parser.ts`, positions dropped. -/
structure Token where
  type : TokType
  value : List Char
deriving DecidableEq, Repr

/-- `isNameStart` from the tokenizer. -/
def isNameStart (c : Char) : Bool :=
  ('a' ≤ c && c ≤ 'z') || ('A' ≤ c && c ≤ 'Z') || c = '_'

/-- `isNameChar` from the tokenizer. -/
def isNameChar (c : Char) : Bool :=
  isNameStart c || ('0' ≤ c && c ≤ '9')

def isDigit (c : Char) : Bool :=
  '0' ≤ c && c ≤ '9'

/-- `isAlphaNum` from the tokenizer (hex digits and underscore). -/
def isAlphaNumTok (c : Char) : Bool :=
  isDigit c || ('a' ≤ c && c ≤ 'f') || ('A' ≤ c && c ≤ 'F') || c = '_'

/-- `skipWhitespace` from the tokenizer: spaces, tabs, and
backslash-newline line continuations. -/
def skipWs : List Char → List Char
  | ' ' :: rest => skipWs rest
  | '\t' :: rest => skipWs rest
  | '\\' :: '\n' :: rest => skipWs rest
  | l => l

/-- The indentation-measuring loop at the head of `handleIndentation`:
counts spaces (tabs advance to the next multiple of 8), resets on blank
lines, and skips comment-only lines.  Returns the indentation of the first
code line and the input from its first code character. -/
def indentScan : Nat → Nat → List Char → Nat × List Char
  | 0, indent, src => (indent, src)
  | fuel + 1, indent, src =>
    match src with
    | ' ' :: rest => indentScan fuel (indent + 1) rest
    | '\t' :: rest => indentScan fuel (indent / 8 * 8 + 8) rest
    | '\r' :: '\n' :: rest => indentScan fuel 0 rest
    | '\r' :: rest => indentScan fuel 0 rest
    | '\n' :: rest => indentScan fuel 0 rest
    | '#' :: rest =>
      indentScan fuel indent (rest.dropWhile (fun c => !(c = '\n')))
    | _ => (indent, src)

/-- `readName` from the tokenizer. -/
def readName (src : List Char) : Token × List Char :=
  let v := src.takeWhile isNameChar
  (⟨.NAME, v⟩, src.drop v.length)

/-- The `0x`/`0o`/`0b` prefix case of `readNumber`. -/
def readNumberPrefixed (src : List Char) : Option (Token × List Char) :=
  match src with
  | '0' :: next :: rest2 =>
    if next = 'x' || next = 'X' || next = 'o' || next = 'O' ||
        next = 'b' || next = 'B' then
      let digits := rest2.takeWhile isAlphaNumTok
      some (⟨.NUMBER, '0' :: next :: digits⟩, rest2.drop digits.length)
    else none
  | _ => none

/-- `readNumber` from the tokenizer. -/
def readNumber (src : List Char) : Token × List Char :=
  match readNumberPrefixed src with
  | some r => r
  | none =>
    let intPart := src.takeWhile (fun c => isDigit c || c = '_')
    let r1 := src.drop intPart.length
    let (fracPart, r2) :=
      match r1 with
      | '.' :: '.' :: _ => (([] : List Char), r1)
      | '.' :: rest =>
        let ds := rest.takeWhile (fun c => isDigit c || c = '_')
        ('.' :: ds, rest.drop ds.length)
      | _ => ([], r1)
    let (expPart, r3) :=
      match r2 with
      | 'e' :: rest =>
        let (sign, rest2) :=
          match rest with
          | '+' :: r => (['+'], r)
          | '-' :: r => (['-'], r)
          | _ => (([] : List Char), rest)
        let ds := rest2.takeWhile (fun c => isDigit c || c = '_')
        ('e' :: sign ++ ds, rest2.drop ds.length)
      | 'E' :: rest =>
        let (sign, rest2) :=
          match rest with
          | '+' :: r => (['+'], r)
          | '-' :: r => (['-'], r)
          | _ => (([] : List Char), rest)
        let ds := rest2.takeWhile (fun c => isDigit c || c = '_')
        ('E' :: sign ++ ds, rest2.drop ds.length)
      | _ => ([], r2)
    let (jPart, r4) :=
      match r3 with
      | 'j' :: rest => (['j'], rest)
      | 'J' :: rest => (['J'], rest)
      | _ => (([] : List Char), r3)
    (⟨.NUMBER, intPart ++ fracPart ++ expPart ++ jPart⟩, r4)

/-- The three-character operators of `readOperator`. -/
def threeCharOps : List (List Char) :=
  ["...", "**=", "//=", ">>=", "<<="].map String.data

/-- The two-character operators of `readOperator`. -/
def twoCharOps : List (List Char) :=
  ["==", "!=", "<=", ">=", "<<", ">>", "**", "//", "->", "+=", "-=", "*=",
   "/=", "%=", "&=", "|=", "^=", "@=", ":="].map String.data

/-- `readOperator` from the tokenizer: longest match, any other single
character becomes a one-character `OP` token. -/
def readOperator (src : List Char) : Token × List Char :=
  let three := src.take 3
  if threeCharOps.contains three then (⟨.OP, three⟩, src.drop 3)
  else
    let two := src.take 2
    if twoCharOps.contains two then (⟨.OP, two⟩, src.drop 2)
    else
      match src with
      | c :: rest => (⟨.OP, [c]⟩, rest)
      | [] => (⟨.OP, []⟩, [])

/-- The tokenizer's mutable state: remaining input, indent stack (head is
the top), pending tokens, and the line-start flag. -/
structure TokState where
  src : List Char
  indentStack : List Nat
  pending : List Token
  atLineStart : Bool
deriving Repr

/-- The dedent-emitting loop of `handleIndentation`: pop levels greater
than the new indentation, one `DEDENT` per pop. -/
def popDedents (indent : Nat) : List Nat → List Token × List Nat
  | [] => ([], [])
  | [top] => ([], [top])
  | top :: next :: rest =>
    if top > indent then
      let (ts, stack) := popDedents indent (next :: rest)
      (⟨.DEDENT, []⟩ :: ts, stack)
    else ([], top :: next :: rest)

/-- `nextToken` (with `handleIndentation` inlined) from the tokenizer.
String-literal branches return errors instead of tokens. -/
def nextTokenAux : Nat → TokState → Except String (Token × TokState)
  | 0, _ => .error "tokenizer: out of fuel"
  | fuel + 1, st =>
    if st.atLineStart then
      let (indent, rest) := indentScan (st.src.length + 1) 0 st.src
      let st2 : TokState :=
        { st with src := rest, atLineStart := false }
      if rest.isEmpty then
        if st2.indentStack.length > 1 then
          .ok (⟨.DEDENT, []⟩, { st2 with indentStack := st2.indentStack.tail })
        else .ok (⟨.ENDMARKER, []⟩, st2)
      else
        let cur := st2.indentStack.headD 0
        if indent > cur then
          .ok (⟨.INDENT, []⟩, { st2 with indentStack := indent :: st2.indentStack })
        else if indent < cur then
          match popDedents indent st2.indentStack with
          | (t :: ts, stack) =>
            .ok (t, { st2 with indentStack := stack, pending := ts ++ st2.pending })
          | ([], _) => .error "tokenizer: dedent underflow"
        else nextTokenAux fuel st2
    else
      let src := skipWs st.src
      let st2 : TokState := { st with src := src }
      match src with
      | [] =>
        if st2.indentStack.length > 1 then
          .ok (⟨.DEDENT, []⟩, { st2 with indentStack := st2.indentStack.tail })
        else .ok (⟨.ENDMARKER, []⟩, st2)
      | c :: rest =>
        if c = '#' then
          nextTokenAux fuel
            { st2 with src := src.dropWhile (fun x => !(x = '\n')) }
        else if c = '\n' then
          .ok (⟨.NEWLINE, ['\n']⟩, { st2 with src := rest, atLineStart := true })
        else if c = '\r' then
          let rest2 := if rest.head? = some '\n' then rest.tail else rest
          .ok (⟨.NEWLINE, ['\n']⟩, { st2 with src := rest2, atLineStart := true })
        else if c = '"' || c = '\'' then
          .error "tokenizer: string literals not embedded"
        else if (c = 'f' || c = 'F') &&
            (rest.head? = some '"' || rest.head? = some '\'') then
          .error "tokenizer: f-strings not embedded"
        else if (c = 'r' || c = 'R') &&
            (rest.head? = some '"' || rest.head? = some '\'') then
          .error "tokenizer: raw strings not embedded"
        else if (c = 'b' || c = 'B') &&
            (rest.head? = some '"' || rest.head? = some '\'') then
          .error "tokenizer: byte strings not embedded"
        else if (c = 'r' || c = 'R') &&
            (rest.head? = some 'f' || rest.head? = some 'F') &&
            ((rest.drop 1).head? = some '"' || (rest.drop 1).head? = some '\'') then
          .error "tokenizer: raw f-strings not embedded"
        else if (c = 'f' || c = 'F') &&
            (rest.head? = some 'r' || rest.head? = some 'R') &&
            ((rest.drop 1).head? = some '"' || (rest.drop 1).head? = some '\'') then
          .error "tokenizer: raw f-strings not embedded"
        else if isDigit c then
          let (t, r) := readNumber src
          .ok (t, { st2 with src := r })
        else if c = '.' && (rest.head?.elim false isDigit) then
          let (t, r) := readNumber src
          .ok (t, { st2 with src := r })
        else if isNameStart c then
          let (t, r) := readName src
          .ok (t, { st2 with src := r })
        else
          let (t, r) := readOperator src
          .ok (t, { st2 with src := r })

/-- `next` from the tokenizer: pending tokens first. -/
def tkNext (fuel : Nat) (st : TokState) : Except String (Token × TokState) :=
  match st.pending with
  | t :: rest => .ok (t, { st with pending := rest })
  | [] => nextTokenAux fuel st

/-- Run the tokenizer to completion (the parser only ever pulls tokens in
order, so pre-tokenizing is equivalent). -/
def tokenizeAll : Nat → TokState → Except String (List Token)
  | 0, _ => .error "tokenizer: out of fuel"
  | fuel + 1, st => do
    let (t, st2) ← tkNext (st.src.length + 2) st
    if t.type = .ENDMARKER then .ok [t]
    else do
      let ts ← tokenizeAll fuel st2
      .ok (t :: ts)

/-- Tokenize a whole source. -/
def tokenize (source : List Char) : Except String (List Token) :=
  tokenizeAll (source.length * 2 + 8) ⟨source, [0], [], true⟩

/-!
## Parser fragment (class Parser, src/core/ast/parser.ts)

The embedding covers the expression grammar (names, numbers, `True`,
`False`, `None`, `...`, unary/binary/boolean operators, chained
comparisons, ternaries, walrus, await, yield, tuples, lists, starred
expressions, attribute access, calls, subscripts and slices) and the
statement fragment reached by the import claims (`import`, `from-import`,
`pass`, `break`, `continue`).  Lambdas, comprehensions,
dict/set displays, string atoms and the remaining statement kinds return
errors, restricting the verified fragment.  Number constants keep their
raw lexeme (the source converts them with `parseFloat`/`parseInt`;
floating point is outside this model and no claim inspects them).
-/

inductive OperatorType where
  | Add | Sub | Mult | MatMult | Div | Mod | Pow
  | LShift | RShift | BitOr | BitXor | BitAnd | FloorDiv
deriving DecidableEq, Repr

inductive UnaryOpType where
  | Invert | Not | UAdd | USub
deriving DecidableEq, Repr

inductive CompareOperatorType where
  | Eq | NotEq | Lt | LtE | Gt | GtE | Is | IsNot | In | NotIn
deriving DecidableEq, Repr

inductive BoolOpType where
  | And | Or
deriving DecidableEq, Repr

/-- Values carried by `Constant` nodes in the fragment; numbers keep the
raw lexeme. -/
inductive ConstVal where
  | bool (b : Bool)
  | none
  | num (raw : List Char)
  | ellipsis
deriving DecidableEq, Repr

/-- Expression nodes of the fragment (`ExpressionNode` in the source).
`keyword(arg?, value)` helper nodes are represented as pairs. -/
inductive ExprNode where
  | Name (id : List Char)
  | Constant (value : ConstVal)
  | Tuple (elts : List ExprNode)
  | ListE (elts : List ExprNode)
  | Starred (value : ExprNode)
  | Yield (value : Option ExprNode)
  | YieldFrom (value : ExprNode)
  | BoolOp (op : BoolOpType) (values : List ExprNode)
  | UnaryOp (op : UnaryOpType) (operand : ExprNode)
  | BinOp (left : ExprNode) (op : OperatorType) (right : ExprNode)
  | Compare (left : ExprNode) (ops : List CompareOperatorType)
      (comparators : List ExprNode)
  | NamedExpr (target : ExprNode) (value : ExprNode)
  | IfExp (test : ExprNode) (body : ExprNode) (orelse : ExprNode)
  | Await (value : ExprNode)
  | Attribute (value : ExprNode) (attr : List Char)
  | Call (func : ExprNode) (args : List ExprNode)
      (keywords : List (Option (List Char) × ExprNode))
  | Subscript (value : ExprNode) (slice : ExprNode)
  | Slice (lower upper step : Option ExprNode)
deriving Repr

/-- `alias(name, asname?)`. -/
structure AliasNode where
  name : List Char
  asname : Option (List Char)
deriving DecidableEq, Repr

/-- Statement nodes of the fragment. -/
inductive StmtNode where
  | Import (names : List AliasNode)
  | ImportFrom (module : List Char) (names : List AliasNode) (level : Nat)
  | Pass
  | Break
  | Continue
deriving DecidableEq, Repr

/-- The parser state: the remaining token list (`currentToken` is its
head, `ENDMARKER` once exhausted). -/
structure PState where
  toks : List Token
deriving Repr

def endTok : Token := ⟨.ENDMARKER, []⟩

def curTok (st : PState) : Token :=
  st.toks.headD endTok

/-- `this.tokenizer.peek()`: the token after the current one. -/
def peekTok (st : PState) : Token :=
  (st.toks.drop 1).headD endTok

/-- `advance`. -/
def pAdvance (st : PState) : PState :=
  ⟨st.toks.drop 1⟩

/-- `match(type, value?)` with a value. -/
def matchTokV (st : PState) (ty : TokType) (v : List Char) : Bool :=
  (curTok st).type = ty && (curTok st).value = v

/-- `match(type)` without a value. -/
def matchTokT (st : PState) (ty : TokType) : Bool :=
  (curTok st).type = ty

/-- `match('OP', v)`. -/
def matchOp (st : PState) (v : String) : Bool :=
  matchTokV st .OP v.data

/-- `matchKeyword`. -/
def matchKeywordP (st : PState) (kw : String) : Bool :=
  (curTok st).type = .NAME && (curTok st).value = kw.data

/-- `expect(type, value)`. -/
def expectV (st : PState) (ty : TokType) (v : List Char) :
    Except String (Token × PState) :=
  if (curTok st).type = ty && (curTok st).value = v then
    .ok (curTok st, pAdvance st)
  else .error "SyntaxError: unexpected token"

/-- `expect(type)`. -/
def expectT (st : PState) (ty : TokType) : Except String (Token × PState) :=
  if (curTok st).type = ty then .ok (curTok st, pAdvance st)
  else .error "SyntaxError: unexpected token"

/-- `isKeyword` from the parser. -/
def isKeyword (v : List Char) : Bool :=
  (["False", "None", "True", "and", "as", "assert", "async", "await",
    "break", "class", "continue", "def", "del", "elif", "else", "except",
    "finally", "for", "from", "global", "if", "import", "in", "is",
    "lambda", "nonlocal", "not", "or", "pass", "raise", "return", "try",
    "while", "with", "yield", "match", "case", "type"].map
      String.data).contains v

/-- The comparison-operator recognition inside the `parseComparison` loop
(lines 1810-1855): consumes the operator tokens and returns the operator,
or `none` to stop the loop. -/
def parseCompOp (st : PState) :
    Except String (Option (CompareOperatorType × PState)) :=
  if matchOp st "<" then
    let st := pAdvance st
    if matchOp st "=" then .ok (some (.LtE, pAdvance st))
    else .ok (some (.Lt, st))
  else if matchOp st ">" then
    let st := pAdvance st
    if matchOp st "=" then .ok (some (.GtE, pAdvance st))
    else .ok (some (.Gt, st))
  else if matchOp st "==" then .ok (some (.Eq, pAdvance st))
  else if matchOp st "!=" then .ok (some (.NotEq, pAdvance st))
  else if matchOp st "<=" then .ok (some (.LtE, pAdvance st))
  else if matchOp st ">=" then .ok (some (.GtE, pAdvance st))
  else if matchKeywordP st "in" then .ok (some (.In, pAdvance st))
  else if matchKeywordP st "not" then do
    let (_, st) ← expectV (pAdvance st) .NAME "in".data
    .ok (some (.NotIn, st))
  else if matchKeywordP st "is" then
    let st := pAdvance st
    if matchKeywordP st "not" then .ok (some (.IsNot, pAdvance st))
    else .ok (some (.Is, st))
  else .ok none

mutual

/-- `parseExpr` (line 1735). -/
def parseExpr : Nat → PState → Except String (ExprNode × PState)
  | 0, _ => .error "parser: out of fuel"
  | fuel + 1, st => parseNamedExpr fuel st
termination_by structural fuel => fuel

/-- `parseNamedExpr` (line 1739). -/
def parseNamedExpr : Nat → PState → Except String (ExprNode × PState)
  | 0, _ => .error "parser: out of fuel"
  | fuel + 1, st => do
    let (expr, st) ← parseTernary fuel st
    if matchOp st ":=" then do
      let (value, st) ← parseExpr fuel (pAdvance st)
      .ok (.NamedExpr expr value, st)
    else .ok (expr, st)
termination_by structural fuel => fuel

/-- `parseTernary` (line 1751). -/
def parseTernary : Nat → PState → Except String (ExprNode × PState)
  | 0, _ => .error "parser: out of fuel"
  | fuel + 1, st => do
    let (expr, st) ← parseOr fuel st
    if matchKeywordP st "if" then do
      let (test, st) ← parseOr fuel (pAdvance st)
      let (_, st) ← expectV st .NAME "else".data
      let (orelse, st) ← parseTernary fuel st
      .ok (.IfExp test expr orelse, st)
    else .ok (expr, st)
termination_by structural fuel => fuel

/-- `parseOr` (line 1765). -/
def parseOr : Nat → PState → Except String (ExprNode × PState)
  | 0, _ => .error "parser: out of fuel"
  | fuel + 1, st => do
    let (left, st) ← parseAnd fuel st
    if matchKeywordP st "or" then do
      let (values, st) ← parseOrLoop fuel [left] st
      .ok (.BoolOp .Or values, st)
    else .ok (left, st)
termination_by structural fuel => fuel

def parseOrLoop : Nat → List ExprNode → PState →
    Except String (List ExprNode × PState)
  | 0, _, _ => .error "parser: out of fuel"
  | fuel + 1, values, st =>
    if matchKeywordP st "or" then do
      let (v, st) ← parseAnd fuel (pAdvance st)
      parseOrLoop fuel (values ++ [v]) st
    else .ok (values, st)
termination_by structural fuel => fuel

/-- `parseAnd` (line 1780). -/
def parseAnd : Nat → PState → Except String (ExprNode × PState)
  | 0, _ => .error "parser: out of fuel"
  | fuel + 1, st => do
    let (left, st) ← parseNot fuel st
    if matchKeywordP st "and" then do
      let (values, st) ← parseAndLoop fuel [left] st
      .ok (.BoolOp .And values, st)
    else .ok (left, st)
termination_by structural fuel => fuel

def parseAndLoop : Nat → List ExprNode → PState →
    Except String (List ExprNode × PState)
  | 0, _, _ => .error "parser: out of fuel"
  | fuel + 1, values, st =>
    if matchKeywordP st "and" then do
      let (v, st) ← parseNot fuel (pAdvance st)
      parseAndLoop fuel (values ++ [v]) st
    else .ok (values, st)
termination_by structural fuel => fuel

/-- `parseNot` (line 1795). -/
def parseNot : Nat → PState → Except String (ExprNode × PState)
  | 0, _ => .error "parser: out of fuel"
  | fuel + 1, st =>
    if matchKeywordP st "not" then do
      let (operand, st) ← parseNot fuel (pAdvance st)
      .ok (.UnaryOp .Not operand, st)
    else parseComparison fuel st
termination_by structural fuel => fuel

/-- `parseComparison` (line 1803). -/
def parseComparison : Nat → PState → Except String (ExprNode × PState)
  | 0, _ => .error "parser: out of fuel"
  | fuel + 1, st => do
    let (left, st) ← parseBitOr fuel st
    let (ops, comparators, st) ← parseCompLoop fuel [] [] st
    if ops.length = 0 then .ok (left, st)
    else .ok (.Compare left ops comparators, st)
termination_by structural fuel => fuel

/-- The `while (true)` loop of `parseComparison` (lines 1809-1861): `ops`
and `comparators` are pushed in lockstep. -/
def parseCompLoop : Nat → List CompareOperatorType → List ExprNode →
    PState → Except String (List CompareOperatorType × List ExprNode × PState)
  | 0, _, _, _ => .error "parser: out of fuel"
  | fuel + 1, ops, comparators, st => do
    let o ← parseCompOp st
    match o with
    | none => .ok (ops, comparators, st)
    | some (op, st) => do
      let (e, st) ← parseBitOr fuel st
      parseCompLoop fuel (ops ++ [op]) (comparators ++ [e]) st
termination_by structural fuel => fuel

/-- `parseBitOr` (line 1870). -/
def parseBitOr : Nat → PState → Except String (ExprNode × PState)
  | 0, _ => .error "parser: out of fuel"
  | fuel + 1, st => do
    let (left, st) ← parseBitXor fuel st
    parseBitOrLoop fuel left st
termination_by structural fuel => fuel

def parseBitOrLoop : Nat → ExprNode → PState →
    Except String (ExprNode × PState)
  | 0, _, _ => .error "parser: out of fuel"
  | fuel + 1, left, st =>
    if matchOp st "|" then do
      let (right, st) ← parseBitXor fuel (pAdvance st)
      parseBitOrLoop fuel (.BinOp left .BitOr right) st
    else .ok (left, st)
termination_by structural fuel => fuel

/-- `parseBitXor` (line 1882). -/
def parseBitXor : Nat → PState → Except String (ExprNode × PState)
  | 0, _ => .error "parser: out of fuel"
  | fuel + 1, st => do
    let (left, st) ← parseBitAnd fuel st
    parseBitXorLoop fuel left st
termination_by structural fuel => fuel

def parseBitXorLoop : Nat → ExprNode → PState →
    Except String (ExprNode × PState)
  | 0, _, _ => .error "parser: out of fuel"
  | fuel + 1, left, st =>
    if matchOp st "^" then do
      let (right, st) ← parseBitAnd fuel (pAdvance st)
      parseBitXorLoop fuel (.BinOp left .BitXor right) st
    else .ok (left, st)
termination_by structural fuel => fuel

/-- `parseBitAnd` (line 1894). -/
def parseBitAnd : Nat → PState → Except String (ExprNode × PState)
  | 0, _ => .error "parser: out of fuel"
  | fuel + 1, st => do
    let (left, st) ← parseShift fuel st
    parseBitAndLoop fuel left st
termination_by structural fuel => fuel

def parseBitAndLoop : Nat → ExprNode → PState →
    Except String (ExprNode × PState)
  | 0, _, _ => .error "parser: out of fuel"
  | fuel + 1, left, st =>
    if matchOp st "&" then do
      let (right, st) ← parseShift fuel (pAdvance st)
      parseBitAndLoop fuel (.BinOp left .BitAnd right) st
    else .ok (left, st)
termination_by structural fuel => fuel

/-- `parseShift` (line 1906). -/
def parseShift : Nat → PState → Except String (ExprNode × PState)
  | 0, _ => .error "parser: out of fuel"
  | fuel + 1, st => do
    let (left, st) ← parseArith fuel st
    parseShiftLoop fuel left st
termination_by structural fuel => fuel

def parseShiftLoop : Nat → ExprNode → PState →
    Except String (ExprNode × PState)
  | 0, _, _ => .error "parser: out of fuel"
  | fuel + 1, left, st =>
    if matchOp st "<<" || matchOp st ">>" then
      let op : OperatorType :=
        if (curTok st).value = "<<".data then .LShift else .RShift
      do
        let (right, st) ← parseArith fuel (pAdvance st)
        parseShiftLoop fuel (.BinOp left op right) st
    else .ok (left, st)
termination_by structural fuel => fuel

/-- `parseArith` (line 1918). -/
def parseArith : Nat → PState → Except String (ExprNode × PState)
  | 0, _ => .error "parser: out of fuel"
  | fuel + 1, st => do
    let (left, st) ← parseTerm fuel st
    parseArithLoop fuel left st
termination_by structural fuel => fuel

def parseArithLoop : Nat → ExprNode → PState →
    Except String (ExprNode × PState)
  | 0, _, _ => .error "parser: out of fuel"
  | fuel + 1, left, st =>
    if matchOp st "+" || matchOp st "-" then
      let op : OperatorType :=
        if (curTok st).value = "+".data then .Add else .Sub
      do
        let (right, st) ← parseTerm fuel (pAdvance st)
        parseArithLoop fuel (.BinOp left op right) st
    else .ok (left, st)
termination_by structural fuel => fuel

/-- `parseTerm` (line 1930). -/
def parseTerm : Nat → PState → Except String (ExprNode × PState)
  | 0, _ => .error "parser: out of fuel"
  | fuel + 1, st => do
    let (left, st) ← parseFactor fuel st
    parseTermLoop fuel left st
termination_by structural fuel => fuel

def parseTermLoop : Nat → ExprNode → PState →
    Except String (ExprNode × PState)
  | 0, _, _ => .error "parser: out of fuel"
  | fuel + 1, left, st =>
    if matchOp st "*" || matchOp st "/" || matchOp st "//" ||
        matchOp st "%" || matchOp st "@" then
      let opVal := (curTok st).value
      let op : OperatorType :=
        if opVal = "*".data then .Mult
        else if opVal = "/".data then .Div
        else if opVal = "//".data then .FloorDiv
        else if opVal = "%".data then .Mod
        else .MatMult
      do
        let (right, st) ← parseFactor fuel (pAdvance st)
        parseTermLoop fuel (.BinOp left op right) st
    else .ok (left, st)
termination_by structural fuel => fuel

/-- `parseFactor` (line 1950). -/
def parseFactor : Nat → PState → Except String (ExprNode × PState)
  | 0, _ => .error "parser: out of fuel"
  | fuel + 1, st =>
    if matchOp st "+" then do
      let (operand, st) ← parseFactor fuel (pAdvance st)
      .ok (.UnaryOp .UAdd operand, st)
    else if matchOp st "-" then do
      let (operand, st) ← parseFactor fuel (pAdvance st)
      .ok (.UnaryOp .USub operand, st)
    else if matchOp st "~" then do
      let (operand, st) ← parseFactor fuel (pAdvance st)
      .ok (.UnaryOp .Invert operand, st)
    else parsePower fuel st
termination_by structural fuel => fuel

/-- `parsePower` (line 1966). -/
def parsePower : Nat → PState → Except String (ExprNode × PState)
  | 0, _ => .error "parser: out of fuel"
  | fuel + 1, st => do
    let (left, st) ← parseAwait fuel st
    if matchOp st "**" then do
      let (right, st) ← parseFactor fuel (pAdvance st)
      .ok (.BinOp left .Pow right, st)
    else .ok (left, st)
termination_by structural fuel => fuel

/-- `parseAwait` (line 1978); note the source parses the awaited value
with `parsePrimary`, not `parseAtom`. -/
def parseAwait : Nat → PState → Except String (ExprNode × PState)
  | 0, _ => .error "parser: out of fuel"
  | fuel + 1, st =>
    if matchKeywordP st "await" then do
      let (v, st) ← parsePrimary fuel (pAdvance st)
      .ok (.Await v, st)
    else parseAtom fuel st
termination_by structural fuel => fuel

/-- `parseAtom` (line 1986): a primary followed by call, subscript and
attribute trailers. -/
def parseAtom : Nat → PState → Except String (ExprNode × PState)
  | 0, _ => .error "parser: out of fuel"
  | fuel + 1, st => do
    let (atom, st) ← parsePrimary fuel st
    parseTrailers fuel atom st
termination_by structural fuel => fuel

def parseTrailers : Nat → ExprNode → PState →
    Except String (ExprNode × PState)
  | 0, _, _ => .error "parser: out of fuel"
  | fuel + 1, atom, st =>
    if matchOp st "(" then do
      let (c, st) ← parseCall fuel atom st
      parseTrailers fuel c st
    else if matchOp st "[" then do
      let (s, st) ← parseSubscript fuel atom st
      parseTrailers fuel s st
    else if matchOp st "." then do
      let (t, st) ← expectT (pAdvance st) .NAME
      parseTrailers fuel (.Attribute atom t.value) st
    else .ok (atom, st)
termination_by structural fuel => fuel

/-- `parsePrimary` (line 2007).  Lambdas, comprehensions, dict/set
displays and string atoms are not embedded and return errors. -/
def parsePrimary : Nat → PState → Except String (ExprNode × PState)
  | 0, _ => .error "parser: out of fuel"
  | fuel + 1, st =>
    if matchKeywordP st "lambda" then .error "parser: lambda not embedded"
    else if matchKeywordP st "yield" then
      let st := pAdvance st
      if matchKeywordP st "from" then do
        let (v, st) ← parseExpr fuel (pAdvance st)
        .ok (.YieldFrom v, st)
      else if !(matchTokT st .NEWLINE) && !(matchOp st ")") &&
          !(matchOp st ",") then do
        let (v, st) ← parseExpr fuel st
        .ok (.Yield (some v), st)
      else .ok (.Yield none, st)
    else if matchOp st "(" then
      let st := pAdvance st
      if matchOp st ")" then .ok (.Tuple [], pAdvance st)
      else do
        let (first, st) ← parseExpr fuel st
        if matchKeywordP st "for" || matchKeywordP st "async" then
          .error "parser: generator expression not embedded"
        else if matchOp st "," then do
          let (elts, st) ← parseTupleRest fuel [first] st
          let (_, st) ← expectV st .OP ")".data
          .ok (.Tuple elts, st)
        else do
          let (_, st) ← expectV st .OP ")".data
          .ok (first, st)
    else if matchOp st "[" then
      let st := pAdvance st
      if matchOp st "]" then .ok (.ListE [], pAdvance st)
      else do
        let (first, st) ← parseExpr fuel st
        if matchKeywordP st "for" || matchKeywordP st "async" then
          .error "parser: list comprehension not embedded"
        else do
          let (elts, st) ← parseListRest fuel [first] st
          let (_, st) ← expectV st .OP "]".data
          .ok (.ListE elts, st)
    else if matchOp st "\x7b" then .error "parser: dict/set not embedded"
    else if matchOp st "*" then do
      let (v, st) ← parseExpr fuel (pAdvance st)
      .ok (.Starred v, st)
    else if matchTokT st .NAME then
      let name := (curTok st).value
      let st := pAdvance st
      if name = "True".data then .ok (.Constant (.bool true), st)
      else if name = "False".data then .ok (.Constant (.bool false), st)
      else if name = "None".data then .ok (.Constant .none, st)
      else .ok (.Name name, st)
    else if matchTokT st .NUMBER then
      .ok (.Constant (.num (curTok st).value), pAdvance st)
    else if matchTokT st .STRING then
      .error "parser: string atoms not embedded"
    else if matchOp st "..." then .ok (.Constant .ellipsis, pAdvance st)
    else .error "SyntaxError: unexpected token"
termination_by structural fuel => fuel

/-- Tuple-element loop inside `parsePrimary` (lines 2046-2051). -/
def parseTupleRest : Nat → List ExprNode → PState →
    Except String (List ExprNode × PState)
  | 0, _, _ => .error "parser: out of fuel"
  | fuel + 1, elts, st =>
    if matchOp st "," then
      let st := pAdvance st
      if matchOp st ")" then .ok (elts, st)
      else do
        let (e, st) ← parseExpr fuel st
        parseTupleRest fuel (elts ++ [e]) st
    else .ok (elts, st)
termination_by structural fuel => fuel

/-- List-element loop inside `parsePrimary` (lines 2079-2084). -/
def parseListRest : Nat → List ExprNode → PState →
    Except String (List ExprNode × PState)
  | 0, _, _ => .error "parser: out of fuel"
  | fuel + 1, elts, st =>
    if matchOp st "," then
      let st := pAdvance st
      if matchOp st "]" then .ok (elts, st)
      else do
        let (e, st) ← parseExpr fuel st
        parseListRest fuel (elts ++ [e]) st
    else .ok (elts, st)
termination_by structural fuel => fuel

/-- `parseCall` (line 2206). -/
def parseCall : Nat → ExprNode → PState → Except String (ExprNode × PState)
  | 0, _, _ => .error "parser: out of fuel"
  | fuel + 1, func, st => do
    let (args, keywords, st) ← parseCallLoop fuel [] [] (pAdvance st)
    let (_, st) ← expectV st .OP ")".data
    .ok (.Call func args keywords, st)
termination_by structural fuel => fuel

/-- The argument loop of `parseCall` (lines 2212-2241). -/
def parseCallLoop : Nat → List ExprNode →
    List (Option (List Char) × ExprNode) → PState →
    Except String
      (List ExprNode × List (Option (List Char) × ExprNode) × PState)
  | 0, _, _, _ => .error "parser: out of fuel"
  | fuel + 1, args, keywords, st =>
    if matchOp st ")" then .ok (args, keywords, st)
    else do
      let (st, earlyBreak) ←
        if args.length > 0 || keywords.length > 0 then do
          let (_, st2) ← expectV st .OP ",".data
          if matchOp st2 ")" then pure (st2, true) else pure (st2, false)
        else pure (st, false)
      if earlyBreak then .ok (args, keywords, st)
      else if matchOp st "**" then do
        let (v, st) ← parseExpr fuel (pAdvance st)
        parseCallLoop fuel args (keywords ++ [(none, v)]) st
      else if matchOp st "*" then do
        let (v, st) ← parseExpr fuel (pAdvance st)
        parseCallLoop fuel (args ++ [.Starred v]) keywords st
      else if matchTokT st .NAME && (peekTok st).value = "=".data then do
        let name := (curTok st).value
        let (v, st) ← parseExpr fuel (pAdvance (pAdvance st))
        parseCallLoop fuel args (keywords ++ [(some name, v)]) st
      else do
        let (v, st) ← parseExpr fuel st
        parseCallLoop fuel (args ++ [v]) keywords st
termination_by structural fuel => fuel

/-- `parseSubscript` (line 2247). -/
def parseSubscript : Nat → ExprNode → PState →
    Except String (ExprNode × PState)
  | 0, _, _ => .error "parser: out of fuel"
  | fuel + 1, value, st => do
    let (slice, st) ← parseSubscriptSlice fuel (pAdvance st)
    let (_, st) ← expectV st .OP "]".data
    .ok (.Subscript value slice, st)
termination_by structural fuel => fuel

/-- `parseSubscriptSlice` (line 2256). -/
def parseSubscriptSlice : Nat → PState → Except String (ExprNode × PState)
  | 0, _ => .error "parser: out of fuel"
  | fuel + 1, st => do
    let (first, st) ← parseSliceItem fuel st
    if matchOp st "," then do
      let (elts, st) ← parseSliceTupleRest fuel [first] st
      .ok (.Tuple elts, st)
    else .ok (first, st)
termination_by structural fuel => fuel

/-- The comma loop of `parseSubscriptSlice` (lines 2263-2267). -/
def parseSliceTupleRest : Nat → List ExprNode → PState →
    Except String (List ExprNode × PState)
  | 0, _, _ => .error "parser: out of fuel"
  | fuel + 1, elts, st =>
    if matchOp st "," then
      let st := pAdvance st
      if matchOp st "]" then .ok (elts, st)
      else do
        let (e, st) ← parseSliceItem fuel st
        parseSliceTupleRest fuel (elts ++ [e]) st
    else .ok (elts, st)
termination_by structural fuel => fuel

/-- `parseSliceItem` (line 2274).  The source uses `lower!` when the item
is a bare index; the embedding reflects that the lower bound is present
in that case. -/
def parseSliceItem : Nat → PState → Except String (ExprNode × PState)
  | 0, _ => .error "parser: out of fuel"
  | fuel + 1, st => do
    let (lower, st) ←
      if !(matchOp st ":") then do
        let (e, st) ← parseExpr fuel st
        pure (some e, st)
      else pure (none, st)
    if matchOp st ":" then
      let st := pAdvance st
      do
        let (upper, st) ←
          if !(matchOp st ":") && !(matchOp st "]") && !(matchOp st ",") then do
            let (e, st) ← parseExpr fuel st
            pure (some e, st)
          else pure (none, st)
        let (step, st) ←
          if matchOp st ":" then
            let st := pAdvance st
            if !(matchOp st "]") && !(matchOp st ",") then do
              let (e, st) ← parseExpr fuel st
              pure (some e, st)
            else pure (none, st)
          else pure (none, st)
        .ok (.Slice lower upper step, st)
    else
      match lower with
      | some e => .ok (e, st)
      | none => .error "parser: missing slice index"
termination_by structural fuel => fuel

end

/-!
### Statement fragment
-/

/-- `parseDottedName` (line 856). -/
def parseDottedNameLoop : Nat → List Char → PState →
    Except String (List Char × PState)
  | 0, _, _ => .error "parser: out of fuel"
  | fuel + 1, name, st =>
    if matchOp st "." then
      let st := pAdvance st
      if isKeyword (curTok st).value then
        .error "SyntaxError: unexpected keyword in dotted name"
      else do
        let (t, st) ← expectT st .NAME
        parseDottedNameLoop fuel (name ++ ".".data ++ t.value) st
    else .ok (name, st)

def parseDottedName (fuel : Nat) (st : PState) :
    Except String (List Char × PState) := do
  let (t, st) ← expectT st .NAME
  parseDottedNameLoop fuel t.value st

/-- `parseDottedNameUntilImport` (line 869). -/
def parseDNUntilImportLoop : Nat → List Char → PState →
    Except String (List Char × PState)
  | 0, _, _ => .error "parser: out of fuel"
  | fuel + 1, name, st =>
    if matchOp st "." && !(matchKeywordP st "import") then
      let st := pAdvance st
      if matchKeywordP st "import" then .ok (name, st)
      else do
        let (t, st) ← expectT st .NAME
        parseDNUntilImportLoop fuel (name ++ ".".data ++ t.value) st
    else .ok (name, st)

def parseDottedNameUntilImport (fuel : Nat) (st : PState) :
    Except String (List Char × PState) := do
  let (t, st) ← expectT st .NAME
  parseDNUntilImportLoop fuel t.value st

/-- The alias loop of `parseImport` (lines 783-794). -/
def parseImportLoop : Nat → List AliasNode → PState →
    Except String (List AliasNode × PState)
  | 0, _, _ => .error "parser: out of fuel"
  | fuel + 1, names, st => do
    let st := if names.length > 0 && matchOp st "," then pAdvance st else st
    let (name, st) ← parseDottedName fuel st
    let (asname, st) ←
      if matchKeywordP st "as" then do
        let (t, st) ← expectT (pAdvance st) .NAME
        pure (some t.value, st)
      else pure (none, st)
    let names := names ++ [⟨name, asname⟩]
    if matchOp st "," then parseImportLoop fuel names st
    else .ok (names, st)

/-- `parseImport` (line 779). -/
def parseImport (fuel : Nat) (st : PState) :
    Except String (StmtNode × PState) := do
  let (names, st) ← parseImportLoop fuel [] (pAdvance st)
  .ok (.Import names, st)

/-- The leading-dot loop of `parseFromImport` (lines 802-810). -/
def fromLevelLoop : Nat → Nat → PState → Nat × PState
  | 0, level, st => (level, st)
  | fuel + 1, level, st =>
    if matchOp st "." || matchOp st "..." then
      let level := if (curTok st).value = "...".data then level + 3
        else level + 1
      fromLevelLoop fuel level (pAdvance st)
    else (level, st)

/-- The parenthesized-names loop of `parseFromImport` (lines 826-836). -/
def parseFromParenNames : Nat → List AliasNode → PState →
    Except String (List AliasNode × PState)
  | 0, _, _ => .error "parser: out of fuel"
  | fuel + 1, names, st =>
    let st := if matchOp st "," then pAdvance st else st
    if matchOp st ")" then .ok (names, st)
    else do
      let (t, st) ← expectT st .NAME
      let (asname, st) ←
        if matchKeywordP st "as" then do
          let (t2, st) ← expectT (pAdvance st) .NAME
          pure (some t2.value, st)
        else pure (none, st)
      let names := names ++ [(⟨t.value, asname⟩ : AliasNode)]
      if matchOp st "," then parseFromParenNames fuel names st
      else .ok (names, st)

/-- The plain-names loop of `parseFromImport` (lines 839-850). -/
def parseFromPlainNames : Nat → List AliasNode → PState →
    Except String (List AliasNode × PState)
  | 0, _, _ => .error "parser: out of fuel"
  | fuel + 1, names, st => do
    let st ←
      if names.length > 0 then do
        let (_, st2) ← expectV st .OP ",".data
        pure st2
      else pure st
    let (t, st) ← expectT st .NAME
    let (asname, st) ←
      if matchKeywordP st "as" then do
        let (t2, st) ← expectT (pAdvance st) .NAME
        pure (some t2.value, st)
      else pure (none, st)
    let names := names ++ [(⟨t.value, asname⟩ : AliasNode)]
    if matchOp st "," then parseFromPlainNames fuel names st
    else .ok (names, st)

/-- `parseFromImport` (line 799); the node's `module` field is
`module ?? ''`. -/
def parseFromImport (fuel : Nat) (st : PState) :
    Except String (StmtNode × PState) := do
  let st := pAdvance st
  let (level, st) := fromLevelLoop (st.toks.length + 1) 0 st
  let (modName, st) ←
    if (curTok st).type = .NAME && !(matchKeywordP st "import") then do
      let (m, st) ← parseDottedNameUntilImport fuel st
      pure (some m, st)
    else pure (none, st)
  let (_, st) ← expectV st .NAME "import".data
  let (names, st) ←
    if matchOp st "*" then
      pure ([(⟨"*".data, none⟩ : AliasNode)], pAdvance st)
    else if matchOp st "(" then do
      let (names, st) ← parseFromParenNames fuel [] (pAdvance st)
      let (_, st) ← expectV st .OP ")".data
      pure (names, st)
    else parseFromPlainNames fuel [] st
  .ok (.ImportFrom (modName.getD []) names level, st)

/-- `parseSimpleStatement` (line 696), restricted to the embedded
statement kinds; the others return errors. -/
def parseSimpleStatement (fuel : Nat) (st : PState) :
    Except String (StmtNode × PState) := do
  let (stmt, st) ←
    if matchKeywordP st "import" then parseImport fuel st
    else if matchKeywordP st "from" then parseFromImport fuel st
    else if matchKeywordP st "pass" then pure (StmtNode.Pass, pAdvance st)
    else if matchKeywordP st "break" then pure (StmtNode.Break, pAdvance st)
    else if matchKeywordP st "continue" then
      pure (StmtNode.Continue, pAdvance st)
    else if matchKeywordP st "return" then
      .error "parser: return statement not embedded"
    else if matchKeywordP st "raise" then
      .error "parser: raise statement not embedded"
    else if matchKeywordP st "global" then
      .error "parser: global statement not embedded"
    else if matchKeywordP st "nonlocal" then
      .error "parser: nonlocal statement not embedded"
    else if matchKeywordP st "assert" then
      .error "parser: assert statement not embedded"
    else if matchKeywordP st "del" then
      .error "parser: del statement not embedded"
    else .error "parser: expression statement not embedded"
  let st := if (curTok st).type = .NEWLINE then pAdvance st else st
  .ok (stmt, st)

/-- `parseStatement` (line 674), restricted to simple statements; the
compound-statement dispatch targets are not embedded. -/
def parseStatement (fuel : Nat) (st : PState) :
    Except String (StmtNode × PState) :=
  if matchOp st "@" then .error "parser: decorators not embedded"
  else if matchKeywordP st "def" then .error "parser: def not embedded"
  else if matchKeywordP st "async" then .error "parser: async not embedded"
  else if matchKeywordP st "class" then .error "parser: class not embedded"
  else if matchKeywordP st "if" then .error "parser: if not embedded"
  else if matchKeywordP st "for" then .error "parser: for not embedded"
  else if matchKeywordP st "while" then .error "parser: while not embedded"
  else if matchKeywordP st "with" then .error "parser: with not embedded"
  else if matchKeywordP st "match" then .error "parser: match not embedded"
  else if matchKeywordP st "try" then .error "parser: try not embedded"
  else if matchKeywordP st "type" then .error "parser: type not embedded"
  else parseSimpleStatement fuel st

/-- The statement loop of `parse` (lines 628-643). -/
def parseModuleLoop : Nat → List StmtNode → PState →
    Except String (List StmtNode × PState)
  | 0, _, _ => .error "parser: out of fuel"
  | fuel + 1, body, st =>
    if (curTok st).type = .ENDMARKER then .ok (body, st)
    else if (curTok st).type = .NEWLINE || (curTok st).type = .NL then
      parseModuleLoop fuel body (pAdvance st)
    else do
      let (stmt, st) ← parseStatement fuel st
      parseModuleLoop fuel (body ++ [stmt]) st

/-- Fuel sufficient for any descent over a token list. -/
def parserFuel (toks : List Token) : Nat :=
  (toks.length + 2) * 64

/-- `parse` from `src/core/ast/parser.ts` (module entry point). -/
def parse (source : List Char) : Except String (List StmtNode) := do
  let toks ← tokenize source
  let (body, _) ← parseModuleLoop (parserFuel toks) [] ⟨toks⟩
  .ok body

/-- `parseExpression` from `src/core/ast/parser.ts`. -/
def parseExpression (source : List Char) : Except String ExprNode := do
  let toks ← tokenize source
  let (e, _) ← parseExpr (parserFuel toks) ⟨toks⟩
  .ok e

/-- A relative-import dot token: `OP` with value `.` or `...` (the only
dot-valued operator tokens the tokenizer produces). -/
def isDotTok (t : Token) : Bool :=
  t.type = .OP && (t.value = ".".data || t.value = "...".data)

/-- Total number of characters in the values of a token list (for dot
tokens: the number of written dots). -/
def dotCount (ts : List Token) : Nat :=
  (ts.map (fun t => t.value.length)).sum

/-- Does a module name follow the leading dots? (`parseFromImport` line
813: current token is a `NAME` other than `import`). -/
def moduleNameFollows (ts : List Token) : Bool :=
  let t := ts.headD endTok
  t.type = .NAME && !(t.value = "import".data)

/-!
## The Compare well-formedness invariant

`compareOk e` holds when every `Compare` node in the tree `e` has `ops`
and `comparators` of the same length, with at least one operator.
-/

mutual

def compareOk : ExprNode → Bool
  | .Name _ => true
  | .Constant _ => true
  | .Tuple elts => compareOkList elts
  | .ListE elts => compareOkList elts
  | .Starred v => compareOk v
  | .Yield v => compareOkOpt v
  | .YieldFrom v => compareOk v
  | .BoolOp _ values => compareOkList values
  | .UnaryOp _ operand => compareOk operand
  | .BinOp l _ r => compareOk l && compareOk r
  | .Compare l ops cs =>
      compareOk l && compareOkList cs &&
        decide (ops.length = cs.length) && decide (1 ≤ ops.length)
  | .NamedExpr t v => compareOk t && compareOk v
  | .IfExp t b o => compareOk t && compareOk b && compareOk o
  | .Await v => compareOk v
  | .Attribute v _ => compareOk v
  | .Call f args kws => compareOk f && compareOkList args && compareOkKws kws
  | .Subscript v s => compareOk v && compareOk s
  | .Slice lo hi stp => compareOkOpt lo && compareOkOpt hi && compareOkOpt stp

def compareOkList : List ExprNode → Bool
  | [] => true
  | e :: es => compareOk e && compareOkList es

def compareOkOpt : Option ExprNode → Bool
  | none => true
  | some e => compareOk e

def compareOkKws : List (Option (List Char) × ExprNode) → Bool
  | [] => true
  | (_, e) :: ks => compareOk e && compareOkKws ks

end

@[simp]
theorem PState.toks_mk (l : List Token) : (⟨l⟩ : PState).toks = l := rfl

theorem except_bind_ok {α β : Type} {m : Except String α}
    {k : α → Except String β} {b : β} (h : (m >>= k) = .ok b) :
    ∃ a, m = .ok a ∧ k a = .ok b := by
  cases m with
  | error e => simp [Bind.bind, Except.bind] at h
  | ok a => exact ⟨a, rfl, by simpa [Bind.bind, Except.bind] using h⟩

theorem analyze_violations (code : List Char) :
    (analyze code).violations = allRules.flatMap (applyRule code) := rfl

theorem applyRule_mem_type {code : List Char} {r : SafetyRule}
    {v : SafetyViolation} (hv : v ∈ applyRule code r) : v.type = r.type := by
  simp only [applyRule, List.mem_flatMap, List.mem_filterMap] at hv
  obtain ⟨p, _, m, _, hmv⟩ := hv
  cases hsk : r.skipIf with
  | none =>
    rw [hsk] at hmv
    cases hmv
    rfl
  | some f =>
    rw [hsk] at hmv
    by_cases hf : f code m = true
    · simp [hf] at hmv
    · simp [hf] at hmv
      rw [← hmv]

theorem applyRule_skip_all {code : List Char} {r : SafetyRule}
    {f : List Char → MatchRec → Bool} (hsk : r.skipIf = some f)
    (hall : ∀ m, f code m = true) : applyRule code r = [] := by
  simp only [applyRule, hsk, List.flatMap_eq_nil_iff, List.filterMap_eq_nil_iff]
  intro p _ m _
  simp [hall m]

theorem applyRule_mem_of_match {code : List Char} {r : SafetyRule}
    {f : List Char → MatchRec → Bool} {p : List RItem} {m : MatchRec}
    (hsk : r.skipIf = some f) (hf : f code m = false)
    (hp : p ∈ r.patterns) (hm : m ∈ reMatchAll p code) :
    ({ type := r.type, message := r.getMessage m
       line := some (getLineNumber code m.index)
       severity := r.severity } : SafetyViolation) ∈ applyRule code r := by
  simp only [applyRule, List.mem_flatMap, List.mem_filterMap]
  refine ⟨p, hp, m, hm, ?_⟩
  rw [hsk]
  simp [hf]

/-!
## Verified claims
-/

/-- C10: `mock_input` is idempotent: for every source string `x`,
`mock_input (mock_input x) = mock_input x` — the replacement text
`await __pyx_input__(` contains no occurrence of `input(` that the pattern
`\binput\s*\(` could match. -/
theorem mockInput_idempotent (code : List Char) :
    mockInput (mockInput code) = mockInput code :=
  mockScan_of_noMatch _ false
    (noMatchFrom_mockScan code.length code (Nat.le_refl _) false)

/-- C9: for every source string, the report returned by `analyze` has
`safe = true` iff its `violations` list is empty. -/
theorem analyze_safe_iff_no_violations (code : List Char) :
    (analyze code).safe = true ↔ (analyze code).violations = [] := by
  simp only [analyze, decide_eq_true_eq, List.length_eq_zero]

/-- C8: `wrap_top_level_await` is the identity on every input with no bare
`await` outside an `async def` block, where that notion is the line scan of
`hasTopLevelAwait` (spec §4.5): comment and blank lines are skipped, an
`async def` block is tracked by the indentation of its header, and a bare
`await` is an occurrence of `\bawait\s+` on a non-skipped line outside such
a block. -/
theorem wrapTopLevelAwait_id (code : List Char)
    (h : hasTopLevelAwait code = false) : wrapTopLevelAwait code = code := by
  simp [wrapTopLevelAwait, h]

/-- Witness for C8 at a concrete await-free input. -/
theorem wrapTopLevelAwait_id_witness :
    hasTopLevelAwait "x = 1\nprint(x)".data = false ∧
    wrapTopLevelAwait "x = 1\nprint(x)".data = "x = 1\nprint(x)".data :=
  ⟨by decide, wrapTopLevelAwait_id "x = 1\nprint(x)".data (by decide)⟩

/-- C7: for every source string: if `\bbreak\b` matches anywhere in the
source, `analyze` emits no `infinite_loop` violation at all; if it matches
nowhere, `analyze` emits a warning `infinite_loop` violation for each match
of `while\s+True\s*:` and of `while\s+1\s*:`. -/
theorem infinite_loop_rule_behaviour (code : List Char) :
    (reTest breakPat code = true →
      ∀ v ∈ (analyze code).violations, v.type ≠ ViolationType.infinite_loop) ∧
    (reTest breakPat code = false →
      (∀ m ∈ reMatchAll whileTruePat code,
        ({ type := ViolationType.infinite_loop,
           message := "Potential infinite loop: while True without apparent break",
           line := some (getLineNumber code m.index),
           severity := Severity.warning } : SafetyViolation) ∈
          (analyze code).violations) ∧
      (∀ m ∈ reMatchAll whileOnePat code,
        ({ type := ViolationType.infinite_loop,
           message := "Potential infinite loop: while 1 without apparent break",
           line := some (getLineNumber code m.index),
           severity := Severity.warning } : SafetyViolation) ∈
          (analyze code).violations)) := by
  constructor
  · intro hb v hv
    rw [analyze_violations, List.mem_flatMap] at hv
    obtain ⟨r, hr, hvr⟩ := hv
    simp only [allRules, dangerousImportRules, codeExecutionRules,
      filesystemRules, networkRules, dangerousAttributeRules,
      serializationRules, ffiRules, infiniteLoopRules,
      resourceExhaustionRules, commandInjectionRules, List.mem_append,
      List.mem_cons, List.not_mem_nil, or_false, or_assoc] at hr
    rcases hr with rfl|rfl|rfl|rfl|rfl|rfl|rfl|rfl|rfl|rfl|rfl|rfl|rfl|rfl|
      rfl|rfl|rfl|rfl|rfl|rfl|rfl|rfl|rfl|rfl|rfl|rfl|rfl|rfl|rfl|rfl|rfl|
      rfl|rfl|rfl|rfl <;>
    first
      | (rw [applyRule_skip_all rfl (fun _ => hb)] at hvr
         exact absurd hvr (List.not_mem_nil v))
      | (rw [applyRule_mem_type hvr]; decide)
  · intro hb
    constructor
    · intro m hm
      rw [analyze_violations, List.mem_flatMap]
      refine ⟨{ type := .infinite_loop
                patterns := [whileTruePat]
                getMessage := fun _ =>
                  "Potential infinite loop: while True without apparent break"
                severity := .warning
                skipIf := some (fun code _ => reTest breakPat code) }, ?_, ?_⟩
      · simp [allRules, infiniteLoopRules]
      · exact applyRule_mem_of_match rfl hb (by simp) hm
    · intro m hm
      rw [analyze_violations, List.mem_flatMap]
      refine ⟨{ type := .infinite_loop
                patterns := [whileOnePat]
                getMessage := fun _ =>
                  "Potential infinite loop: while 1 without apparent break"
                severity := .warning
                skipIf := some (fun code _ => reTest breakPat code) }, ?_, ?_⟩
      · simp [allRules, infiniteLoopRules]
      · exact applyRule_mem_of_match rfl hb (by simp) hm

/-- Witness for C7: on `while True:\n    x = 1` (no `break`), the warning
violation for the `while True:` match at index 0 is in the report. -/
theorem infinite_loop_rule_witness :
    ({ type := ViolationType.infinite_loop,
       message := "Potential infinite loop: while True without apparent break",
       line := some (getLineNumber "while True:\n    x = 1".data 0),
       severity := Severity.warning } : SafetyViolation) ∈
      (analyze "while True:\n    x = 1".data).violations :=
  ((infinite_loop_rule_behaviour "while True:\n    x = 1".data).2
    (by decide)).1 ⟨0, "while True:".data, none⟩ (by decide)

theorem joinNl_cons_cons (c : Char) (x : List Char) (xs : List (List Char)) :
    joinNl ((c :: x) :: xs) = c :: joinNl (x :: xs) := by
  cases xs <;> simp [joinNl]

theorem joinNl_splitNl (l : List Char) : joinNl (splitNl l) = l := by
  induction l with
  | nil => rfl
  | cons c rest ih =>
    simp only [splitNl]
    by_cases hc : c = '\n'
    · rw [if_pos hc]
      cases hsp : splitNl rest with
      | nil => exact absurd hsp (splitNl_ne_nil rest)
      | cons x xs =>
        rw [hsp] at ih
        simp [joinNl, ih, hc]
    · rw [if_neg hc]
      cases hsp : splitNl rest with
      | nil => exact absurd hsp (splitNl_ne_nil rest)
      | cons x xs =>
        rw [hsp] at ih
        rw [joinNl_cons_cons, ih]

theorem rewriteImportsAux_id : ∀ (lines : List (List Char)),
    (∀ line ∈ lines,
      Option.all (fun m => m.isEmpty || isStdlibModule m)
        (extractModuleName line) = true) →
    ∀ installed, rewriteImportsAux installed lines = lines := by
  intro lines
  induction lines with
  | nil => intro _ _; rfl
  | cons line rest ih =>
    intro h installed
    have hline := h line (List.mem_cons_self _ _)
    have hrest := fun l hl => h l (List.mem_cons_of_mem _ hl)
    simp only [rewriteImportsAux]
    cases hx : extractModuleName line with
    | none => rw [ih hrest installed]
    | some m =>
      rw [hx] at hline
      simp only [Option.all] at hline
      cases m with
      | nil => simp [ih hrest]
      | cons c cs =>
        simp only [List.isEmpty_cons, Bool.false_or] at hline
        simp [hline, ih hrest]

/-- C2 counterexample: `rewrite_imports` is not idempotent — a second pass
over the output for `import numpy` inserts a second
`await micropip.install("numpy")` line, because the installed-package set
is per call and the original import line is still present. -/
theorem rewriteImports_not_idempotent :
    rewriteImports (rewriteImports "import numpy".data) ≠
      rewriteImports "import numpy".data := by
  decide

/-- C2 amended: `rewrite_imports` is idempotent on exactly the sources it
leaves unchanged — those in which every line either yields no module name
or names a stdlib module (or yields the empty name); on such sources
`rewrite_imports x = x`, so a second pass inserts no additional
`await micropip.install(...)` lines.  On any source with a non-stdlib
module line, a second pass inserts a duplicate install line. -/
theorem rewriteImports_idempotent_of_stdlib_only (code : List Char)
    (h : ∀ line ∈ splitNl code,
      Option.all (fun m => m.isEmpty || isStdlibModule m)
        (extractModuleName line) = true) :
    rewriteImports (rewriteImports code) = rewriteImports code := by
  have hfix : rewriteImports code = code := by
    rw [rewriteImports, rewriteImportsAux_id (splitNl code) h [], joinNl_splitNl]
  rw [hfix, hfix]

/-- Witness for C2 (amended) at a stdlib-only source. -/
theorem rewriteImports_idempotent_witness :
    rewriteImports (rewriteImports "import math\nx = 1".data) =
      rewriteImports "import math\nx = 1".data :=
  rewriteImports_idempotent_of_stdlib_only "import math\nx = 1".data (by decide)

theorem splitNl_single {l : List Char}
    (h : l.all (fun c => !(c = '\n')) = true) : splitNl l = [l] := by
  induction l with
  | nil => rfl
  | cons c rest ih =>
    simp only [List.all_cons, Bool.and_eq_true] at h
    simp only [splitNl]
    rw [if_neg (by simpa using h.1), ih h.2]

theorem splitNl_append_nl {l : List Char} (t : List Char)
    (h : l.all (fun c => !(c = '\n')) = true) :
    splitNl (l ++ '\n' :: t) = l :: splitNl t := by
  induction l with
  | nil => simp [splitNl]
  | cons c rest ih =>
    simp only [List.all_cons, Bool.and_eq_true] at h
    simp only [List.cons_append, splitNl, List.append_eq]
    rw [if_neg (by simpa using h.1), ih h.2]

theorem splitNl_joinNl_eq : ∀ (ls : List (List Char)), ls ≠ [] →
    (∀ l ∈ ls, l.all (fun c => !(c = '\n')) = true) →
    splitNl (joinNl ls) = ls := by
  intro ls
  induction ls with
  | nil => intro h; exact absurd rfl h
  | cons l rest ih =>
    intro _ hall
    cases rest with
    | nil => exact splitNl_single (hall l (List.mem_cons_self _ _))
    | cons x xs =>
      have : joinNl (l :: x :: xs) = l ++ '\n' :: joinNl (x :: xs) := rfl
      rw [this, splitNl_append_nl _ (hall l (List.mem_cons_self _ _)),
        ih (by simp) (fun a ha => hall a (List.mem_cons_of_mem _ ha))]

theorem lastMeaningfulRev_skip : ∀ (ls rest : List (List Char)),
    (∀ l ∈ ls, meaningfulLine l = false) →
    lastMeaningfulRev (ls ++ rest) = lastMeaningfulRev rest := by
  intro ls rest
  induction ls with
  | nil => intro _; rfl
  | cons l ls2 ih =>
    intro h
    simp only [List.cons_append, lastMeaningfulRev, List.append_eq]
    rw [if_neg (by simp [h l (List.mem_cons_self _ _)]),
      ih (fun a ha => h a (List.mem_cons_of_mem _ ha))]

theorem lastMeaningfulRev_cons_of_meaningful {line : List Char}
    (rest : List (List Char)) (h : meaningfulLine line = true) :
    lastMeaningfulRev (line :: rest) = some (rest.length, line) := by
  simp [lastMeaningfulRev, h]

theorem set_middle {α : Type} : ∀ (pre : List α) (line x : α) (post : List α),
    (pre ++ line :: post).set pre.length x = pre ++ x :: post := by
  intro pre line x post
  induction pre with
  | nil => rfl
  | cons p ps ih => simp [List.set, ih]

/-- C3 counterexample: the line `x = 1 == 2` is an assignment in the
claim's sense (its first `=` is not part of `==`/`!=`/`<=`/`>=` and not
inside a lambda), so the claim demands the input back unchanged; but
`extractReturnValue` treats any line containing `==` as a non-assignment
and rewrites it. -/
theorem extractReturnValue_eq_assignment_rewritten :
    extractReturnValue "x = 1 == 2".data ≠ "x = 1 == 2".data ∧
    extractReturnValue "x = 1 == 2".data =
      "__pyx_result__ = x = 1 == 2".data := by
  decide

/-- C3 amended: `extract_return_value` scans backward past blank and
comment-only lines; if no meaningful line exists the input is returned
unchanged; if the last meaningful line (after stripping a trailing
comment and trimming) begins with one of the listed statement keywords,
or is an assignment in the code's sense — its first `=` is not
immediately preceded by one of `=`, `!`, `<`, `>` and not immediately
followed by `=`, **and the line contains no `==` and no `lambda`
anywhere** — the input is returned unchanged; otherwise only that line is
replaced by `<indent>__pyx_result__ = <expr>` (trailing comment
preserved), keeping the original leading indentation. -/
theorem extractReturnValue_spec :
    (∀ (pre : List (List Char)) (line : List Char) (post : List (List Char)),
      (∀ l ∈ pre ++ line :: post, l.all (fun c => !(c = '\n')) = true) →
      meaningfulLine line = true →
      (∀ l ∈ post, meaningfulLine l = false) →
      extractReturnValue (joinNl (pre ++ line :: post)) =
        (if startsKeyword (cleanLine line) || isAssignment (cleanLine line) then
          joinNl (pre ++ line :: post)
        else joinNl (pre ++ rewriteLine line :: post))) ∧
    (∀ ls : List (List Char), ls ≠ [] →
      (∀ l ∈ ls, l.all (fun c => !(c = '\n')) = true) →
      (∀ l ∈ ls, meaningfulLine l = false) →
      extractReturnValue (joinNl ls) = joinNl ls) := by
  constructor
  · intro pre line post hnl hml hpost
    have hsplit := splitNl_joinNl_eq (pre ++ line :: post) (by simp) hnl
    have hrev : (pre ++ line :: post).reverse =
        post.reverse ++ line :: pre.reverse := by
      simp
    have hskip : lastMeaningfulRev (post.reverse ++ line :: pre.reverse) =
        some (pre.reverse.length, line) := by
      rw [lastMeaningfulRev_skip post.reverse _
        (fun l hl => hpost l (List.mem_reverse.mp hl))]
      exact lastMeaningfulRev_cons_of_meaningful _ hml
    simp only [extractReturnValue, hsplit, hrev, hskip]
    rw [List.length_reverse, set_middle]
    by_cases h1 : startsKeyword (cleanLine line) = true
    · simp [h1]
    · by_cases h2 : isAssignment (cleanLine line) = true
      · simp [h1, h2]
      · simp [h1, h2]
  · intro ls hne hnl hall
    have hsplit := splitNl_joinNl_eq ls hne hnl
    have hskip : lastMeaningfulRev ls.reverse = none := by
      have := lastMeaningfulRev_skip ls.reverse []
        (fun l hl => hall l (List.mem_reverse.mp hl))
      simpa using this
    simp only [extractReturnValue, hsplit, hskip]

/-- Witness for C3 (amended): a non-assignment last line is rewritten. -/
theorem extractReturnValue_spec_witness :
    extractReturnValue "y = 2\nx + 1".data =
      "y = 2\n__pyx_result__ = x + 1".data := by
  have h := extractReturnValue_spec.1 ["y = 2".data] "x + 1".data []
    (by decide) (by decide) (by decide)
  rw [if_neg (by decide)] at h
  exact h

set_option maxHeartbeats 1000000 in
/-- C4: `parse_expression` on `a < b <= c` returns
`Compare(left=Name "a", ops=[Lt, LtE], comparators=[Name "b", Name "c"])`,
with the operators and comparators in source order. -/
theorem parseExpression_chained_comparison :
    parseExpression "a < b <= c".data =
      .ok (.Compare (.Name "a".data) [.Lt, .LtE]
        [.Name "b".data, .Name "c".data]) := rfl

theorem fromLevelLoop_spec : ∀ (toks : List Token) (fuel lvl : Nat),
    (toks.takeWhile isDotTok).length < fuel →
    fromLevelLoop fuel lvl ⟨toks⟩ =
      (lvl + dotCount (toks.takeWhile isDotTok), ⟨toks.dropWhile isDotTok⟩) := by
  intro toks
  induction toks with
  | nil =>
    intro fuel lvl _
    match fuel with
    | f + 1 =>
      simp [fromLevelLoop, matchOp, matchTokV, curTok, endTok, dotCount]
  | cons t ts ih =>
    intro fuel lvl hf
    by_cases hd : isDotTok t = true
    · rw [List.takeWhile_cons_of_pos hd] at hf ⊢
      rw [List.dropWhile_cons_of_pos hd]
      simp only [isDotTok, Bool.and_eq_true, Bool.or_eq_true,
        decide_eq_true_eq] at hd
      match fuel with
      | f + 1 =>
        have hf2 : (ts.takeWhile isDotTok).length < f := by
          simp only [List.length_cons] at hf
          omega
        have hcond : (matchOp ⟨t :: ts⟩ "." || matchOp ⟨t :: ts⟩ "...") = true := by
          simp only [matchOp, matchTokV, curTok, List.headD_cons,
            Bool.or_eq_true, Bool.and_eq_true, decide_eq_true_eq]
          rcases hd.2 with h | h
          · exact Or.inl ⟨hd.1, h⟩
          · exact Or.inr ⟨hd.1, h⟩
        simp only [fromLevelLoop, hcond, if_true]
        have hadv : pAdvance ⟨t :: ts⟩ = (⟨ts⟩ : PState) := rfl
        rw [hadv, ih f _ hf2]
        have hcnt : dotCount (t :: ts.takeWhile isDotTok) =
            t.value.length + dotCount (ts.takeWhile isDotTok) := by
          simp [dotCount]
        rcases hd.2 with h | h
        · have : ¬((curTok ⟨t :: ts⟩).value = "...".data) := by
            simp only [curTok, List.headD_cons, h]
            decide
          rw [if_neg this, hcnt, h]
          simp only [Prod.mk.injEq, and_true, List.length_cons,
            List.length_nil]
          omega
        · have : (curTok ⟨t :: ts⟩).value = "...".data := by
            simp only [curTok, List.headD_cons, h]
          rw [if_pos this, hcnt, h]
          simp only [Prod.mk.injEq, and_true, List.length_cons,
            List.length_nil]
          omega
    · rw [List.takeWhile_cons_of_neg hd, List.dropWhile_cons_of_neg hd]
      match fuel with
      | f + 1 =>
        have hcond : (matchOp ⟨t :: ts⟩ "." || matchOp ⟨t :: ts⟩ "...") = false := by
          simp only [isDotTok, Bool.and_eq_true, Bool.or_eq_true,
            decide_eq_true_eq, not_and, not_or] at hd
          simp only [matchOp, matchTokV, curTok, List.headD_cons,
            Bool.or_eq_false_iff, Bool.and_eq_false_iff]
          constructor
          · by_cases ht : t.type = .OP
            · right
              simp [(hd ht).1]
            · left
              simp [ht]
          · by_cases ht : t.type = .OP
            · right
              simp [(hd ht).2]
            · left
              simp [ht]
        simp [fromLevelLoop, hcond, dotCount]

theorem expectT_ok {st : PState} {ty : TokType} {t : Token} {st2 : PState}
    (h : expectT st ty = .ok (t, st2)) :
    t = curTok st ∧ st2 = pAdvance st ∧ (curTok st).type = ty := by
  unfold expectT at h
  split at h
  · rename_i hc
    cases h
    exact ⟨rfl, rfl, hc⟩
  · cases h

theorem curTok_mem {st : PState} (h : (curTok st).type = TokType.NAME) :
    curTok st ∈ st.toks := by
  cases hts : st.toks with
  | nil =>
    rw [curTok, hts] at h
    cases h
  | cons a l =>
    simp [curTok, hts]

theorem parseDNUILoop_prefix : ∀ (fuel : Nat) (name : List Char)
    (st : PState) (r : List Char) (st2 : PState),
    parseDNUntilImportLoop fuel name st = .ok (r, st2) →
    ∃ suffix, r = name ++ suffix := by
  intro fuel
  induction fuel with
  | zero => intro name st r st2 h; cases h
  | succ fuel ih =>
    intro name st r st2 h
    simp only [parseDNUntilImportLoop] at h
    split at h
    · split at h
      · cases h
        exact ⟨[], by simp⟩
      · obtain ⟨⟨t, stA⟩, _, h2⟩ := except_bind_ok h
        obtain ⟨suf, hs⟩ := ih _ _ _ _ h2
        exact ⟨".".data ++ t.value ++ suf, by simp [hs]⟩
    · cases h
      exact ⟨[], by simp⟩

theorem parseDNUI_nonempty {fuel : Nat} {st : PState} {r : List Char}
    {st2 : PState}
    (hwf : ∀ t ∈ st.toks, t.type = TokType.NAME → t.value ≠ [])
    (h : parseDottedNameUntilImport fuel st = .ok (r, st2)) : r ≠ [] := by
  unfold parseDottedNameUntilImport at h
  obtain ⟨⟨t, stA⟩, h1, h2⟩ := except_bind_ok h
  obtain ⟨rfl, _, hty⟩ := expectT_ok h1
  obtain ⟨suf, hs⟩ := parseDNUILoop_prefix _ _ _ _ _ h2
  subst hs
  have hv := hwf _ (curTok_mem hty) hty
  intro hnil
  exact hv (List.append_eq_nil.mp hnil).1

theorem cond_eq_moduleNameFollows (ts : List Token) :
    ((decide ((curTok ⟨ts⟩).type = TokType.NAME)) &&
      !(matchKeywordP ⟨ts⟩ "import")) = moduleNameFollows ts := by
  have hb : ∀ a b : Bool, (a && !(a && b)) = (a && !b) := by decide
  simp only [curTok, matchKeywordP, moduleNameFollows, PState.toks_mk]
  exact hb _ _

/-- C5: `parse` on `from ...pkg.sub import item` yields a module whose
single statement is `ImportFrom(module="pkg.sub", names=[alias("item")],
level=3)`; and in every `ImportFrom` produced by `parseFromImport` (its
only construction site), `level` is the total count of characters in the
leading dot tokens, and `module` is the empty string — the value stored by
`module ?? ''` for an absent module — exactly when no module name (a
`NAME` other than `import`) follows the dots.  Token lists coming from the
tokenizer have nonempty `NAME` values, the theorem's well-formedness
hypothesis. -/
theorem parseFromImport_spec :
    (parse "from ...pkg.sub import item".data =
      .ok [.ImportFrom "pkg.sub".data [⟨"item".data, none⟩] 3]) ∧
    (∀ (fuel : Nat) (st : PState) (modName : List Char)
        (names : List AliasNode) (level : Nat) (st2 : PState),
      (∀ t ∈ st.toks, t.type = TokType.NAME → t.value ≠ []) →
      parseFromImport fuel st = .ok (.ImportFrom modName names level, st2) →
      level = dotCount ((st.toks.drop 1).takeWhile isDotTok) ∧
      (modName = [] ↔
        moduleNameFollows ((st.toks.drop 1).dropWhile isDotTok) = false)) := by
  constructor
  · rfl
  · intro fuel st modName names level st2 hwf h
    have hloop := fromLevelLoop_spec (st.toks.drop 1)
      ((st.toks.drop 1).length + 1) 0
      (Nat.lt_succ_of_le (List.takeWhile_prefix _).length_le)
    have hwf2 : ∀ t ∈ (((st.toks.drop 1).dropWhile isDotTok) : List Token),
        t.type = TokType.NAME → t.value ≠ [] := by
      intro t ht
      exact hwf t ((List.drop_suffix _ _).subset
        ((List.dropWhile_suffix _).subset ht))
    unfold parseFromImport at h
    simp only [pAdvance, PState.toks_mk] at h
    simp only [hloop] at h
    split at h
    · rename_i hc
      obtain ⟨⟨m, stx⟩, hA1, h⟩ := except_bind_ok h
      simp only [pure_bind] at h
      obtain ⟨⟨ti, sti⟩, hE, h⟩ := except_bind_ok h
      have hmf : moduleNameFollows ((st.toks.drop 1).dropWhile isDotTok) = true := by
        rw [← cond_eq_moduleNameFollows]
        simpa using hc
      have hne := parseDNUI_nonempty hwf2 hA1
      have hkey : modName = m ∧
          level = 0 + dotCount ((st.toks.drop 1).takeWhile isDotTok) := by
        split at h
        · simp only [pure_bind, Except.ok.injEq, Prod.mk.injEq,
            StmtNode.ImportFrom.injEq, Option.getD_some] at h
          obtain ⟨⟨h1, -, h3⟩, -⟩ := h
          exact ⟨h1.symm, h3.symm⟩
        · split at h
          · obtain ⟨⟨ns, stp⟩, -, h⟩ := except_bind_ok h
            obtain ⟨⟨tp, stq⟩, -, h⟩ := except_bind_ok h
            simp only [pure_bind, Except.ok.injEq, Prod.mk.injEq,
              StmtNode.ImportFrom.injEq, Option.getD_some] at h
            obtain ⟨⟨h1, -, h3⟩, -⟩ := h
            exact ⟨h1.symm, h3.symm⟩
          · obtain ⟨⟨ns, stp⟩, -, h⟩ := except_bind_ok h
            simp only [Except.ok.injEq, Prod.mk.injEq,
              StmtNode.ImportFrom.injEq, Option.getD_some] at h
            obtain ⟨⟨h1, -, h3⟩, -⟩ := h
            exact ⟨h1.symm, h3.symm⟩
      obtain ⟨rfl, rfl⟩ := hkey
      refine ⟨by omega, ?_⟩
      constructor
      · intro hx; exact absurd hx hne
      · intro hx; rw [hmf] at hx; cases hx
    · rename_i hc
      simp only [pure_bind] at h
      obtain ⟨⟨ti, sti⟩, hE, h⟩ := except_bind_ok h
      have hmf : moduleNameFollows ((st.toks.drop 1).dropWhile isDotTok) = false := by
        rw [← cond_eq_moduleNameFollows]
        simpa using hc
      have hkey : modName = ([] : List Char) ∧
          level = 0 + dotCount ((st.toks.drop 1).takeWhile isDotTok) := by
        split at h
        · simp only [pure_bind, Except.ok.injEq, Prod.mk.injEq,
            StmtNode.ImportFrom.injEq, Option.getD_none] at h
          obtain ⟨⟨h1, -, h3⟩, -⟩ := h
          exact ⟨h1.symm, h3.symm⟩
        · split at h
          · obtain ⟨⟨ns, stp⟩, -, h⟩ := except_bind_ok h
            obtain ⟨⟨tp, stq⟩, -, h⟩ := except_bind_ok h
            simp only [pure_bind, Except.ok.injEq, Prod.mk.injEq,
              StmtNode.ImportFrom.injEq, Option.getD_none] at h
            obtain ⟨⟨h1, -, h3⟩, -⟩ := h
            exact ⟨h1.symm, h3.symm⟩
          · obtain ⟨⟨ns, stp⟩, -, h⟩ := except_bind_ok h
            simp only [Except.ok.injEq, Prod.mk.injEq,
              StmtNode.ImportFrom.injEq, Option.getD_none] at h
            obtain ⟨⟨h1, -, h3⟩, -⟩ := h
            exact ⟨h1.symm, h3.symm⟩
      obtain ⟨rfl, rfl⟩ := hkey
      exact ⟨by omega, fun _ => hmf, fun _ => rfl⟩

/-- Witness for C5's universal part at the tokens of `from . import x`. -/
theorem parseFromImport_spec_witness :
    1 = dotCount ((([⟨.NAME, "from".data⟩, ⟨.OP, ".".data⟩,
        ⟨.NAME, "import".data⟩, ⟨.NAME, "x".data⟩,
        (⟨.ENDMARKER, []⟩ : Token)].drop 1)).takeWhile isDotTok) ∧
    (([] : List Char) = [] ↔
      moduleNameFollows ((([⟨.NAME, "from".data⟩, ⟨.OP, ".".data⟩,
        ⟨.NAME, "import".data⟩, ⟨.NAME, "x".data⟩,
        (⟨.ENDMARKER, []⟩ : Token)].drop 1)).dropWhile isDotTok) = false) :=
  parseFromImport_spec.2 99
    ⟨[⟨.NAME, "from".data⟩, ⟨.OP, ".".data⟩, ⟨.NAME, "import".data⟩,
      ⟨.NAME, "x".data⟩, ⟨.ENDMARKER, []⟩]⟩
    [] [⟨"x".data, none⟩] 1 ⟨[⟨.ENDMARKER, []⟩]⟩ (by decide) rfl

/-- C1 counterexample: on the two-line input `import os\nos.system('rm -rf /')`
the claim fails — `analyze` does flag `safe = false` with a
`dangerous_import` violation at line 1, but it emits no `command_injection`
violation (the `os.system` rule's regex requires an f-string argument). -/
theorem analyze_os_system_claim_false :
    ¬ ((analyze "import os\nos.system('rm -rf /')".data).safe = false ∧
      (∃ v ∈ (analyze "import os\nos.system('rm -rf /')".data).violations,
        v.type = ViolationType.dangerous_import ∧ v.line = some 1) ∧
      (∃ v ∈ (analyze "import os\nos.system('rm -rf /')".data).violations,
        v.type = ViolationType.command_injection)) := by
  decide

/-- C1 amended: on `import os\nos.system('rm -rf /')`, `analyze` returns
`safe = false` with a `dangerous_import` violation at line 1 whose message
references `os`, and emits no `command_injection` violation (the
`os.system` pattern `os\.system\s*\(\s*f['"]` only fires on f-strings). -/
theorem analyze_os_system_report :
    (analyze "import os\nos.system('rm -rf /')".data).safe = false ∧
    (∃ v ∈ (analyze "import os\nos.system('rm -rf /')".data).violations,
      v.type = ViolationType.dangerous_import ∧ v.line = some 1 ∧
        includesSub "os".data v.message.data = true) ∧
    (∀ v ∈ (analyze "import os\nos.system('rm -rf /')".data).violations,
      v.type ≠ ViolationType.command_injection) := by
  decide


end Pyx

